import Mathlib

/-!
# Verification of `apply_pose_template.py` (Image_To_Pose_Generator)

Shallow embedding of the FK pose-applier script: geometry-based hinge-axis
detection, axis/sign overrides, left/right mirroring, per-bone Euler buffer
writes, and the preview-flex path.

Modelling conventions:
* Blender float vectors are embedded as exact rational triples (`Vec3`).
* `mathutils` normalization (`v.normalize()`, `.normalized()`) divides by a
  square root, which has no exact rational representative.  Every use of a
  normalized vector in the script feeds a *comparison* (a threshold test or an
  argmax/argmin over absolute dot products), and those comparisons are
  invariant under positive per-vector rescaling.  We therefore keep the raw
  vectors and compare provably order-equivalent rational surrogates:
  - `score a n = (a·n)² / ‖a‖²` is strictly monotone in `|â·n̂|` for fixed `n`
    (the common factor `‖n‖²` cancels in comparisons over the three axes), so
    argmax/argmin over `score` selects the same index as the script's
    argmax/argmin over absolute dot products of normalized vectors;
  - the collinearity test `‖ûp × ûc‖ < 1e-8` is rewritten exactly as
    `‖up × uc‖² < (1e-8)² · s(up) · s(uc)` where `s v = ‖v‖²` when the script
    normalized `v` (i.e. `‖v‖ > 1e-8`) and `s v = 1` otherwise
    (`norm_scale_sq`).
* `math.radians` multiplies by the constant π/180; the conversion factor is an
  explicit parameter `deg2rad` of `apply_pose`.
* Python dict update (`amap[c] = axis`) with `amap.get` lookup is modelled by
  prepending to an association list and taking the first match (last write
  wins), and the pose dict is an association list iterated in order.
* The pose buffer (`pose.bones[...].rotation_euler`) is a total function
  `String → Vec3`; writes only happen for names present in the skeleton,
  exactly as `pose.bones.get(name)` guards every write in the script.
  `rotation_mode = 'XYZ'` assignments carry no information we reason about and
  are not modelled.
-/

set_option autoImplicit false

namespace ImageToPose

/-- Rational 3-vector, embedding `mathutils.Vector` values. -/
structure Vec3 where
  x : ℚ
  y : ℚ
  z : ℚ
deriving DecidableEq, Repr

def Vec3.sub (a b : Vec3) : Vec3 := ⟨a.x - b.x, a.y - b.y, a.z - b.z⟩

def Vec3.dot (a b : Vec3) : ℚ := a.x * b.x + a.y * b.y + a.z * b.z

def Vec3.cross (a b : Vec3) : Vec3 :=
  ⟨a.y * b.z - a.z * b.y, a.z * b.x - a.x * b.z, a.x * b.y - a.y * b.x⟩

/-- Squared Euclidean length. -/
def Vec3.lenSq (a : Vec3) : ℚ := a.dot a

def Vec3.zero : Vec3 := ⟨0, 0, 0⟩

/-- Component access by axis index (0 = X, 1 = Y, 2 = Z). -/
def Vec3.comp (v : Vec3) : Fin 3 → ℚ
  | 0 => v.x
  | 1 => v.y
  | 2 => v.z

/-- The script's `1e-8` length threshold (used in `_vec_from_bone` and the
collinearity test of `_compute_hinge_axis_for_child`). -/
def eps_len : ℚ := 1 / 100000000

/-- The script's `1e-6` flex-channel threshold (`_set_euler`). -/
def eps_flex : ℚ := 1 / 1000000

/-- Rest data of one bone (`data.bones` entry): `head_local`, `tail_local`
and the three columns of `matrix_local.to_3x3()` (the local axes in armature
space, normalized by `_axes_from_bone`; `score` performs the normalization
compensation). -/
structure RestBone where
  head : Vec3
  tail : Vec3
  ax : Vec3
  ay : Vec3
  az : Vec3
deriving DecidableEq, Repr

/-- `arm_obj.data.bones`: name-indexed rest bones. -/
abbrev Skeleton := List (String × RestBone)

def Skeleton.get (sk : Skeleton) (name : String) : Option RestBone :=
  List.lookup name sk

/-- `_vec_from_bone`: head→tail direction.  The script normalizes when
`‖v‖ > 1e-8`; we keep the raw vector and compensate scale where it matters
(see `norm_scale_sq` and `score`). -/
def vec_from_bone (db : RestBone) : Vec3 := db.tail.sub db.head

/-- Squared scale factor the script's conditional normalization divides out of
`vec_from_bone`: `‖v‖²` when `‖v‖ > 1e-8` (the script normalized), else `1`. -/
def norm_scale_sq (v : Vec3) : ℚ := if eps_len ^ 2 < v.lenSq then v.lenSq else 1

/-- Order-preserving surrogate for the script's `abs(â.dot(n̂))` where `â` is
the normalized axis: `score a n = (a·n)² / ‖a‖²  =  |â·n|²`.  For a fixed `n`
this is strictly monotone in `|â·n̂|`, so comparisons among the three axes are
preserved exactly (when `a = 0`, the script's normalized zero vector gives dot
`0`, and here `(0)²/0 = 0` as well). -/
def score (a n : Vec3) : ℚ := a.dot n ^ 2 / a.lenSq

/-- Python `max(range(3), key=f)`: scan 0,1,2 keeping the current best, replace
only on strict improvement — the first index attaining the maximum wins. -/
def argmax3 (s0 s1 s2 : ℚ) : Fin 3 :=
  if (if s0 < s1 then s1 else s0) < s2 then 2 else if s0 < s1 then 1 else 0

/-- Python `min(range(3), key=f)`: first index attaining the minimum wins. -/
def argmin3 (s0 s1 s2 : ℚ) : Fin 3 :=
  if s2 < (if s1 < s0 then s1 else s0) then 2 else if s1 < s0 then 1 else 0

/-- `_compute_hinge_axis_for_child`: geometry-based hinge-axis inference.
Non-degenerate branch: first argmax of the (surrogate) absolute dot products of
the child's local axes against the bend-plane normal `up × uc`.  Degenerate
branch (`‖ûp × ûc‖ < 1e-8`, collinearity test written scale-exactly): first
argmin of the absolute dot products against the child direction `uc`. -/
def compute_hinge_axis_for_child (parent_db child_db : RestBone) : Fin 3 :=
  let up := vec_from_bone parent_db
  let uc := vec_from_bone child_db
  let normal := up.cross uc
  if normal.lenSq < eps_len ^ 2 * norm_scale_sq up * norm_scale_sq uc then
    argmin3 (score child_db.ax uc) (score child_db.ay uc) (score child_db.az uc)
  else
    argmax3 (score child_db.ax normal) (score child_db.ay normal) (score child_db.az normal)

/-- The child's local rest axis by index (the columns `_axes_from_bone`
projects onto, indexed X/Y/Z). -/
def child_axis (db : RestBone) : Fin 3 → Vec3
  | 0 => db.ax
  | 1 => db.ay
  | 2 => db.az

/-- The script's module-level configuration (`SWAP_LR`, `PREFER_Y_AS_FLEX`,
`PREVIEW_FLEX_DEG`, `BONES_ORDER`, `HINGE_PAIRS`, the two override tables and
`LR_MAP`), made an explicit value so theorems can quantify over it. -/
structure Config where
  bones_order : List String
  swap_lr : Bool
  prefer_y_as_flex : Bool
  preview_flex_deg : ℚ
  hinge_pairs : List (String × String)
  hinge_axis_override : List (String × String)
  hinge_sign_override : List (String × ℚ)
  lr_map : List (String × String)
deriving Repr

/-- `_swap_lr_key`: substitute through `LR_MAP` when `SWAP_LR` is on, identity
otherwise (a name absent from the map maps to itself). -/
def swap_lr_key (cfg : Config) (name : String) : String :=
  if cfg.swap_lr then (List.lookup name cfg.lr_map).getD name else name

/-- The script's override validity test `axis in ('x','y','z')`. -/
def valid_axis (a : String) : Bool := a = "x" || a = "y" || a = "z"

def axis_name : Fin 3 → String
  | 0 => "x"
  | 1 => "y"
  | 2 => "z"

/-- One `HINGE_PAIRS` iteration of `_build_hinge_map`: `none` when either
(swapped) endpoint is missing from the skeleton (the script's silent
`continue`), otherwise the map entry for the swapped child: a valid
`HINGE_AXIS_OVERRIDE` label, or else the geometry axis. -/
def hinge_entry_for (cfg : Config) (sk : Skeleton) (pc : String × String) :
    Option (String × String) :=
  match Skeleton.get sk (swap_lr_key cfg pc.1), Skeleton.get sk (swap_lr_key cfg pc.2) with
  | some parent_db, some child_db =>
    some (swap_lr_key cfg pc.2,
      (match List.lookup (swap_lr_key cfg pc.2) cfg.hinge_axis_override with
       | some a => if valid_axis a then some a else none
       | none => none).getD (axis_name (compute_hinge_axis_for_child parent_db child_db)))
  | _, _ => none

/-- `_build_hinge_map`: child name → 'x'|'y'|'z'.  Dict assignment with
`.get` lookup is modelled by prepending entries (last write wins on lookup). -/
def build_hinge_map (cfg : Config) (sk : Skeleton) : List (String × String) :=
  cfg.hinge_pairs.foldl (fun amap pc =>
    match hinge_entry_for cfg sk pc with
    | some e => e :: amap
    | none => amap) []

/-- The axis a single `HINGE_PAIRS` iteration of `_build_hinge_map` would
store under the key `c'`, if any (specification helper for `List.lookup` on
`build_hinge_map`). -/
def entry_axis (cfg : Config) (sk : Skeleton) (pc : String × String) (c' : String) :
    Option String :=
  match hinge_entry_for cfg sk pc with
  | some e => if e.1 = c' then some e.2 else none
  | none => none

/-- The axis stored under key `c'` after processing a list of hinge pairs:
the contribution of the *last* pair that writes `c'` (Python dict last-write
wins).  Specification helper for `List.lookup` on `build_hinge_map`. -/
def last_axis (cfg : Config) (sk : Skeleton) : List (String × String) → String → Option String
  | [], _ => none
  | pc :: rest, c' =>
    match last_axis cfg sk rest c' with
    | some a => some a
    | none => entry_axis cfg sk pc c'

/-- `_apply_flex_on_axis`: add the value on the named axis ('x'/'y' tested,
anything else falls to the z branch, as in the script's `if/elif/else`). -/
def apply_flex_on_axis (e : Vec3) (axis : String) (v : ℚ) : Vec3 :=
  if axis = "x" then { e with x := e.x + v }
  else if axis = "y" then { e with y := e.y + v }
  else { e with z := e.z + v }

/-- The axis index `apply_flex_on_axis` writes for a given label. -/
def axis_index (axis : String) : Fin 3 :=
  if axis = "x" then 0 else if axis = "y" then 1 else 2

/-- Pose buffer plus warning log.  `buf` is each bone's `rotation_euler`
(radians); `warnings` collects the script's `[WARN]` prints. -/
structure PoseState where
  buf : String → Vec3
  warnings : List String

/-- `_set_euler`: missing bone → warning, no write.  Hinge-mapped bone with
`PREFER_Y_AS_FLEX` → extract flex scalar (Y if `|ry| > 1e-6`, else that of
X/Z with the larger magnitude, ties to X), multiply by the sign override
(default 1), add on the hinge axis.  Otherwise → overwrite the full triple. -/
def set_euler (cfg : Config) (sk : Skeleton) (st : PoseState) (bone_name : String)
    (rx ry rz : ℚ) (hinge_map : List (String × String)) : PoseState :=
  match Skeleton.get sk bone_name with
  | none => { st with warnings := st.warnings ++ ["[WARN] Missing bone: " ++ bone_name] }
  | some _ =>
    match List.lookup bone_name hinge_map, cfg.prefer_y_as_flex with
    | some axis, true =>
      let sign := (List.lookup bone_name cfg.hinge_sign_override).getD 1
      let flex := sign * (if eps_flex < |ry| then ry else if |rz| ≤ |rx| then rx else rz)
      let e := apply_flex_on_axis (st.buf bone_name) axis flex
      { st with buf := Function.update st.buf bone_name e }
    | _, _ =>
      { st with buf := Function.update st.buf bone_name ⟨rx, ry, rz⟩ }

/-- `reset_rotations`: zero the rotation of every `BONES_ORDER` bone present in
the skeleton (missing names silently skipped). -/
def reset_rotations (cfg : Config) (sk : Skeleton) (buf : String → Vec3) :
    String → Vec3 :=
  cfg.bones_order.foldl (fun b name =>
    match Skeleton.get sk name with
    | some _ => Function.update b name Vec3.zero
    | none => b) buf

/-- One iteration of the preview loop of `apply_pose` (`PREVIEW_FLEX_DEG`
nonzero): for the (swapped) child of a hinge pair that is present in the
skeleton and has a resolved axis, add `radians(sign * PREVIEW_FLEX_DEG)` on
that axis; otherwise do nothing (the script's two `continue`s). -/
def preview_step (deg2rad : ℚ) (cfg : Config) (sk : Skeleton)
    (hinge_map : List (String × String)) (s : PoseState) (pc : String × String) : PoseState :=
  match Skeleton.get sk (swap_lr_key cfg pc.2) with
  | none => s
  | some _ =>
    match List.lookup (swap_lr_key cfg pc.2) hinge_map with
    | none => s
    | some axis =>
      let sign := (List.lookup (swap_lr_key cfg pc.2) cfg.hinge_sign_override).getD 1
      let e := apply_flex_on_axis (s.buf (swap_lr_key cfg pc.2)) axis
        (deg2rad * (sign * cfg.preview_flex_deg))
      { s with buf := Function.update s.buf (swap_lr_key cfg pc.2) e }

/-- One iteration of the normal pose loop of `apply_pose`: swap the entry's
name, convert its degrees to radians, route through `set_euler`. -/
def pose_step (deg2rad : ℚ) (cfg : Config) (sk : Skeleton)
    (hinge_map : List (String × String)) (s : PoseState)
    (entry : String × (ℚ × ℚ × ℚ)) : PoseState :=
  set_euler cfg sk s (swap_lr_key cfg entry.1)
    (deg2rad * entry.2.1) (deg2rad * entry.2.2.1) (deg2rad * entry.2.2.2) hinge_map

/-- `apply_pose`: build the hinge map; if `PREVIEW_FLEX_DEG` is nonzero
(`if PREVIEW_FLEX_DEG and PREVIEW_FLEX_DEG != 0.0`, i.e. nonzero), run the
preview loop over `HINGE_PAIRS` and return without reading the pose;
otherwise iterate the pose entries in order (`deg2rad` abstracts the
constant π/180 of `math.radians`). -/
def apply_pose (deg2rad : ℚ) (cfg : Config) (sk : Skeleton) (st : PoseState)
    (pose_deg : List (String × (ℚ × ℚ × ℚ))) : PoseState :=
  let hinge_map := build_hinge_map cfg sk
  if cfg.preview_flex_deg ≠ 0 then
    cfg.hinge_pairs.foldl (preview_step deg2rad cfg sk hinge_map) st
  else
    pose_deg.foldl (pose_step deg2rad cfg sk hinge_map) st

/-- The script's `main` flow after the armature lookup: `reset_rotations`
followed by `apply_pose` on the same armature (warnings carried along). -/
def reset_then_apply (deg2rad : ℚ) (cfg : Config) (sk : Skeleton) (st : PoseState)
    (pose_deg : List (String × (ℚ × ℚ × ℚ))) : PoseState :=
  apply_pose deg2rad cfg sk ⟨reset_rotations cfg sk st.buf, st.warnings⟩ pose_deg

/-- `BONES_ORDER` from the script. -/
def BONES_ORDER : List String :=
  ["pelvis",
   "spine_01", "spine_02", "spine_03",
   "neck_01", "head",
   "clavicle_l", "upperarm_l", "lowerarm_l", "hand_l",
   "clavicle_r", "upperarm_r", "lowerarm_r", "hand_r",
   "thigh_l", "calf_l", "foot_l", "ball_l",
   "thigh_r", "calf_r", "foot_r", "ball_r"]

/-- `HINGE_PAIRS` from the script (elbows and knees). -/
def HINGE_PAIRS : List (String × String) :=
  [("upperarm_l", "lowerarm_l"), ("upperarm_r", "lowerarm_r"),
   ("thigh_l", "calf_l"), ("thigh_r", "calf_r")]

/-- `LR_MAP` from the script. -/
def LR_MAP : List (String × String) :=
  [("clavicle_l", "clavicle_r"), ("upperarm_l", "upperarm_r"),
   ("lowerarm_l", "lowerarm_r"), ("hand_l", "hand_r"),
   ("clavicle_r", "clavicle_l"), ("upperarm_r", "upperarm_l"),
   ("lowerarm_r", "lowerarm_l"), ("hand_r", "hand_l"),
   ("thigh_l", "thigh_r"), ("calf_l", "calf_r"),
   ("foot_l", "foot_r"), ("ball_l", "ball_r"),
   ("thigh_r", "thigh_l"), ("calf_r", "calf_l"),
   ("foot_r", "foot_l"), ("ball_r", "ball_l")]

/-- The script's module-level option values (`SWAP_LR = False`,
`PREFER_Y_AS_FLEX = True`, `PREVIEW_FLEX_DEG = 0.0`, empty override tables). -/
def defaultConfig : Config :=
  { bones_order := BONES_ORDER
    swap_lr := false
    prefer_y_as_flex := true
    preview_flex_deg := 0
    hinge_pairs := HINGE_PAIRS
    hinge_axis_override := []
    hinge_sign_override := []
    lr_map := LR_MAP }

/-- Per-bone rotation limit (per axis: enabled flag, min, max), as exported by
`armature_exporter.py` for `LIMIT_ROTATION` constraints. -/
structure RotationLimit where
  enabled_x : Bool
  min_x : ℚ
  max_x : ℚ
  enabled_y : Bool
  min_y : ℚ
  max_y : ℚ
  enabled_z : Bool
  min_z : ℚ
  max_z : ℚ
deriving DecidableEq, Repr

/-- Modelled from the spec: an axis is "locked" iff `enabled == true` and
`min == max == 0` within epsilon `1e-6`.  The repository's pose-applier code
has no constraint-based hinge resolution (`_build_hinge_map` consults only
overrides and geometry), so this lock test exists only as the spec's §4.1
contract. -/
def axis_locked (enabled : Bool) (mn mx : ℚ) : Bool :=
  enabled && decide (|mn| ≤ eps_flex) && decide (|mx| ≤ eps_flex)

/-- Modelled from the spec: whether an axis of a `RotationLimit` is free
(not locked). -/
def axis_free (rl : RotationLimit) : Fin 3 → Bool
  | 0 => !axis_locked rl.enabled_x rl.min_x rl.max_x
  | 1 => !axis_locked rl.enabled_y rl.min_y rl.max_y
  | 2 => !axis_locked rl.enabled_z rl.min_z rl.max_z

/-- Modelled from the spec: `resolveFromConstraints` (§4.1), which the
repository's code does not implement — if exactly one axis is free, that axis
is the hinge axis; with zero or two-or-more free axes the result is `none`. -/
def resolveFromConstraints (rl : RotationLimit) : Option (Fin 3) :=
  match axis_free rl 0, axis_free rl 1, axis_free rl 2 with
  | true, false, false => some 0
  | false, true, false => some 1
  | false, false, true => some 2
  | _, _, _ => none

/-! ## Concrete instances (spec §8 reference geometry and test fixtures) -/

/-- Upper-arm rest bone of the spec's concrete scenario: head `(0,0,0)`,
tail `(0,-1,0)`, identity local axes. -/
def upperarmL : RestBone := ⟨⟨0, 0, 0⟩, ⟨0, -1, 0⟩, ⟨1, 0, 0⟩, ⟨0, 1, 0⟩, ⟨0, 0, 1⟩⟩

/-- Lower-arm rest bone of the spec's concrete scenario: head `(0,-1,0)`,
tail `(0,-1,-1)`, identity local axes; the bend normal against `upperarmL`
is along X. -/
def lowerarmL : RestBone := ⟨⟨0, -1, 0⟩, ⟨0, -1, -1⟩, ⟨1, 0, 0⟩, ⟨0, 1, 0⟩, ⟨0, 0, 1⟩⟩

/-- Two-bone elbow skeleton for the concrete scenarios. -/
def sk0 : Skeleton := [("upperarm_l", upperarmL), ("lowerarm_l", lowerarmL)]

/-- Elbow skeleton with the hinge child (`lowerarm_l`) missing. -/
def sk1 : Skeleton := [("upperarm_l", upperarmL)]

/-- Right-leg knee skeleton (same reference geometry) plus a present but
untouched `calf_l`, for the mirroring scenario. -/
def skM : Skeleton :=
  [("thigh_r", upperarmL), ("calf_r", lowerarmL), ("calf_l", lowerarmL)]

/-- All-zero pose buffer with no warnings. -/
def st0 : PoseState := ⟨fun _ => Vec3.zero, []⟩

/-- Pose buffer with every entry at `(1, 2, 3)`, to exhibit additive writes. -/
def stNZ : PoseState := ⟨fun _ => ⟨1, 2, 3⟩, []⟩

/-- Pose bending the left elbow by 30 degrees on the authored Y channel. -/
def pose30 : List (String × (ℚ × ℚ × ℚ)) := [("lowerarm_l", (0, 30, 0))]

/-- The spec §8 "constraint lock detection" rotation limit: enabled with
`min = max = 0` on Y, disabled on X and Z. -/
def rl0 : RotationLimit := ⟨false, 0, 0, true, 0, 0, false, 0, 0⟩

/-- A rotation limit with X and Z locked (`enabled`, `min = max = 0`) and Y
free (`enabled = false`) — exactly one free axis. -/
def rl1 : RotationLimit := ⟨true, 0, 0, false, 0, 0, true, 0, 0⟩

/-- Default configuration with a valid axis override `'z'` for the elbow child. -/
def cfgZ : Config := { defaultConfig with hinge_axis_override := [("lowerarm_l", "z")] }

/-- Default configuration with an invalid axis override label `'q'`. -/
def cfgQ : Config := { defaultConfig with hinge_axis_override := [("lowerarm_l", "q")] }

/-- Default configuration with a 20-degree preview flex. -/
def cfgP : Config := { defaultConfig with preview_flex_deg := 20 }

/-- Default configuration with left/right mirroring enabled. -/
def cfgM : Config := { defaultConfig with swap_lr := true }

/-- Pose bending the left knee by 5 degrees on the authored Y channel. -/
def poseM : List (String × (ℚ × ℚ × ℚ)) := [("calf_l", (0, 5, 0))]

/-- Specification helper for the mirroring claim: the same configuration with
mirroring turned off and every hinge-pair endpoint substituted through the
mirror map up front. -/
def unswapped (cfg : Config) : Config :=
  { cfg with swap_lr := false, hinge_pairs := cfg.hinge_pairs.map (fun pc => (swap_lr_key cfg pc.1, swap_lr_key cfg pc.2)) }

/-! ## Helper lemmas -/

lemma apply_flex_comp_self (e : Vec3) (axis : String) (v : ℚ) :
    (apply_flex_on_axis e axis v).comp (axis_index axis) = e.comp (axis_index axis) + v := by
  unfold apply_flex_on_axis axis_index
  split_ifs <;> rfl

lemma apply_flex_comp_ne (e : Vec3) (axis : String) (v : ℚ) (j : Fin 3)
    (hj : j ≠ axis_index axis) :
    (apply_flex_on_axis e axis v).comp j = e.comp j := by
  unfold apply_flex_on_axis axis_index at *
  split_ifs at hj ⊢ <;> fin_cases j <;> simp_all [Vec3.comp]

lemma set_euler_missing {cfg : Config} {sk : Skeleton} (st : PoseState) (n : String)
    (rx ry rz : ℚ) (m : List (String × String)) (h : Skeleton.get sk n = none) :
    set_euler cfg sk st n rx ry rz m =
      { st with warnings := st.warnings ++ ["[WARN] Missing bone: " ++ n] } := by
  unfold set_euler
  rw [h]

lemma set_euler_hinge {cfg : Config} {sk : Skeleton} (st : PoseState) (n : String)
    (rx ry rz : ℚ) (m : List (String × String)) (db : RestBone) (a : String)
    (h : Skeleton.get sk n = some db) (hm : List.lookup n m = some a)
    (hp : cfg.prefer_y_as_flex = true) :
    set_euler cfg sk st n rx ry rz m =
      { st with buf := Function.update st.buf n (apply_flex_on_axis (st.buf n) a
          (((List.lookup n cfg.hinge_sign_override).getD 1) *
            (if eps_flex < |ry| then ry else if |rz| ≤ |rx| then rx else rz))) } := by
  unfold set_euler
  rw [h, hm, hp]

lemma set_euler_plain_nolookup {cfg : Config} {sk : Skeleton} (st : PoseState) (n : String)
    (rx ry rz : ℚ) (m : List (String × String)) (db : RestBone)
    (h : Skeleton.get sk n = some db) (hm : List.lookup n m = none) :
    set_euler cfg sk st n rx ry rz m =
      { st with buf := Function.update st.buf n ⟨rx, ry, rz⟩ } := by
  unfold set_euler
  rw [h, hm]

lemma set_euler_plain_noprefer {cfg : Config} {sk : Skeleton} (st : PoseState) (n : String)
    (rx ry rz : ℚ) (m : List (String × String)) (db : RestBone)
    (h : Skeleton.get sk n = some db) (hp : cfg.prefer_y_as_flex = false) :
    set_euler cfg sk st n rx ry rz m =
      { st with buf := Function.update st.buf n ⟨rx, ry, rz⟩ } := by
  unfold set_euler
  rw [h, hp]
  rcases List.lookup n m with _ | a <;> rfl

lemma set_euler_buf_ne {cfg : Config} {sk : Skeleton} (st : PoseState) (n : String)
    (rx ry rz : ℚ) (m : List (String × String)) (b : String) (hb : b ≠ n) :
    (set_euler cfg sk st n rx ry rz m).buf b = st.buf b := by
  rcases h : Skeleton.get sk n with _ | db
  · rw [set_euler_missing st n rx ry rz m h]
  · rcases hp : cfg.prefer_y_as_flex with _ | _
    · rw [set_euler_plain_noprefer st n rx ry rz m db h hp]
      exact Function.update_noteq hb _ _
    · rcases hm : List.lookup n m with _ | a
      · rw [set_euler_plain_nolookup st n rx ry rz m db h hm]
        exact Function.update_noteq hb _ _
      · rw [set_euler_hinge st n rx ry rz m db a h hm hp]
        exact Function.update_noteq hb _ _

lemma set_euler_warnings_mem {cfg : Config} {sk : Skeleton} (st : PoseState) (n : String)
    (rx ry rz : ℚ) (m : List (String × String)) (w : String) (hw : w ∈ st.warnings) :
    w ∈ (set_euler cfg sk st n rx ry rz m).warnings := by
  rcases h : Skeleton.get sk n with _ | db
  · rw [set_euler_missing st n rx ry rz m h]
    exact List.mem_append_left _ hw
  · rcases hp : cfg.prefer_y_as_flex with _ | _
    · rw [set_euler_plain_noprefer st n rx ry rz m db h hp]
      exact hw
    · rcases hm : List.lookup n m with _ | a
      · rw [set_euler_plain_nolookup st n rx ry rz m db h hm]
        exact hw
      · rw [set_euler_hinge st n rx ry rz m db a h hm hp]
        exact hw

lemma pose_step_buf_congr (d : ℚ) (cfg : Config) (sk : Skeleton)
    (m : List (String × String)) (s s' : PoseState) (e : String × (ℚ × ℚ × ℚ))
    (b : String) (h : s.buf b = s'.buf b) :
    (pose_step d cfg sk m s e).buf b = (pose_step d cfg sk m s' e).buf b := by
  unfold pose_step
  set n := swap_lr_key cfg e.1 with hn
  by_cases hb : b = n
  · subst hb
    rcases h1 : Skeleton.get sk n with _ | db
    · rw [set_euler_missing s n _ _ _ m h1, set_euler_missing s' n _ _ _ m h1]
      exact h
    · rcases hp : cfg.prefer_y_as_flex with _ | _
      · rw [set_euler_plain_noprefer s n _ _ _ m db h1 hp,
            set_euler_plain_noprefer s' n _ _ _ m db h1 hp]
        simp
      · rcases hm : List.lookup n m with _ | a
        · rw [set_euler_plain_nolookup s n _ _ _ m db h1 hm,
              set_euler_plain_nolookup s' n _ _ _ m db h1 hm]
          simp
        · rw [set_euler_hinge s n _ _ _ m db a h1 hm hp,
              set_euler_hinge s' n _ _ _ m db a h1 hm hp]
          simp [h]
  · rw [set_euler_buf_ne s _ _ _ _ m b hb, set_euler_buf_ne s' _ _ _ _ m b hb]
    exact h

lemma pose_foldl_buf_congr (d : ℚ) (cfg : Config) (sk : Skeleton)
    (m : List (String × String)) (l : List (String × (ℚ × ℚ × ℚ))) :
    ∀ (s s' : PoseState) (b : String), s.buf b = s'.buf b →
      (List.foldl (pose_step d cfg sk m) s l).buf b =
        (List.foldl (pose_step d cfg sk m) s' l).buf b := by
  induction l with
  | nil => intro s s' b h; simpa using h
  | cons e rest ih =>
    intro s s' b h
    simp only [List.foldl_cons]
    exact ih _ _ b (pose_step_buf_congr d cfg sk m s s' e b h)

lemma preview_step_missing (d : ℚ) (cfg : Config) (sk : Skeleton)
    (m : List (String × String)) (s : PoseState) (pc : String × String)
    (h : Skeleton.get sk (swap_lr_key cfg pc.2) = none) :
    preview_step d cfg sk m s pc = s := by
  unfold preview_step
  rw [h]

lemma preview_step_nolookup (d : ℚ) (cfg : Config) (sk : Skeleton)
    (m : List (String × String)) (s : PoseState) (pc : String × String) (db : RestBone)
    (h : Skeleton.get sk (swap_lr_key cfg pc.2) = some db)
    (hm : List.lookup (swap_lr_key cfg pc.2) m = none) :
    preview_step d cfg sk m s pc = s := by
  unfold preview_step
  rw [h, hm]

lemma preview_step_write (d : ℚ) (cfg : Config) (sk : Skeleton)
    (m : List (String × String)) (s : PoseState) (pc : String × String) (db : RestBone)
    (a : String) (h : Skeleton.get sk (swap_lr_key cfg pc.2) = some db)
    (hm : List.lookup (swap_lr_key cfg pc.2) m = some a) :
    preview_step d cfg sk m s pc =
      { s with buf := Function.update s.buf (swap_lr_key cfg pc.2) (apply_flex_on_axis (s.buf (swap_lr_key cfg pc.2)) a (d * (((List.lookup (swap_lr_key cfg pc.2) cfg.hinge_sign_override).getD 1) * cfg.preview_flex_deg))) } := by
  unfold preview_step
  rw [h, hm]

lemma preview_step_buf_ne (d : ℚ) (cfg : Config) (sk : Skeleton)
    (m : List (String × String)) (s : PoseState) (pc : String × String) (b : String)
    (hb : b ≠ swap_lr_key cfg pc.2) :
    (preview_step d cfg sk m s pc).buf b = s.buf b := by
  rcases h : Skeleton.get sk (swap_lr_key cfg pc.2) with _ | db
  · rw [preview_step_missing d cfg sk m s pc h]
  · rcases hm : List.lookup (swap_lr_key cfg pc.2) m with _ | a
    · rw [preview_step_nolookup d cfg sk m s pc db h hm]
    · rw [preview_step_write d cfg sk m s pc db a h hm]
      exact Function.update_noteq hb _ _

lemma preview_step_warnings (d : ℚ) (cfg : Config) (sk : Skeleton)
    (m : List (String × String)) (s : PoseState) (pc : String × String) :
    (preview_step d cfg sk m s pc).warnings = s.warnings := by
  rcases h : Skeleton.get sk (swap_lr_key cfg pc.2) with _ | db
  · rw [preview_step_missing d cfg sk m s pc h]
  · rcases hm : List.lookup (swap_lr_key cfg pc.2) m with _ | a
    · rw [preview_step_nolookup d cfg sk m s pc db h hm]
    · rw [preview_step_write d cfg sk m s pc db a h hm]

lemma preview_step_buf_congr (d : ℚ) (cfg : Config) (sk : Skeleton)
    (m : List (String × String)) (s s' : PoseState) (pc : String × String)
    (b : String) (h : s.buf b = s'.buf b) :
    (preview_step d cfg sk m s pc).buf b = (preview_step d cfg sk m s' pc).buf b := by
  set n := swap_lr_key cfg pc.2 with hn
  by_cases hb : b = n
  · subst hb
    rcases h1 : Skeleton.get sk n with _ | db
    · rw [preview_step_missing d cfg sk m s pc h1, preview_step_missing d cfg sk m s' pc h1]
      exact h
    · rcases hm : List.lookup n m with _ | a
      · rw [preview_step_nolookup d cfg sk m s pc db h1 hm,
            preview_step_nolookup d cfg sk m s' pc db h1 hm]
        exact h
      · rw [preview_step_write d cfg sk m s pc db a h1 hm,
            preview_step_write d cfg sk m s' pc db a h1 hm]
        simp [h]
  · rw [preview_step_buf_ne d cfg sk m s pc b hb, preview_step_buf_ne d cfg sk m s' pc b hb]
    exact h

lemma preview_foldl_buf_congr (d : ℚ) (cfg : Config) (sk : Skeleton)
    (m : List (String × String)) (l : List (String × String)) :
    ∀ (s s' : PoseState) (b : String), s.buf b = s'.buf b →
      (List.foldl (preview_step d cfg sk m) s l).buf b =
        (List.foldl (preview_step d cfg sk m) s' l).buf b := by
  induction l with
  | nil => intro s s' b h; simpa using h
  | cons pc rest ih =>
    intro s s' b h
    simp only [List.foldl_cons]
    exact ih _ _ b (preview_step_buf_congr d cfg sk m s s' pc b h)

lemma preview_foldl_buf_ne (d : ℚ) (cfg : Config) (sk : Skeleton)
    (m : List (String × String)) (l : List (String × String)) :
    ∀ (s : PoseState) (b : String), b ∉ l.map (fun pc => swap_lr_key cfg pc.2) →
      (List.foldl (preview_step d cfg sk m) s l).buf b = s.buf b := by
  induction l with
  | nil => intro s b _; rfl
  | cons pc rest ih =>
    intro s b hb
    simp only [List.map_cons, List.mem_cons, not_or] at hb
    simp only [List.foldl_cons]
    rw [ih _ b hb.2, preview_step_buf_ne d cfg sk m s pc b hb.1]

lemma preview_foldl_warnings (d : ℚ) (cfg : Config) (sk : Skeleton)
    (m : List (String × String)) (l : List (String × String)) :
    ∀ (s : PoseState),
      (List.foldl (preview_step d cfg sk m) s l).warnings = s.warnings := by
  induction l with
  | nil => intro s; rfl
  | cons pc rest ih =>
    intro s
    simp only [List.foldl_cons]
    rw [ih _, preview_step_warnings d cfg sk m s pc]

lemma apply_pose_preview (d : ℚ) (cfg : Config) (sk : Skeleton) (st : PoseState)
    (pose_deg : List (String × (ℚ × ℚ × ℚ))) (h : cfg.preview_flex_deg ≠ 0) :
    apply_pose d cfg sk st pose_deg =
      cfg.hinge_pairs.foldl (preview_step d cfg sk (build_hinge_map cfg sk)) st := by
  unfold apply_pose
  rw [if_pos h]

lemma apply_pose_normal (d : ℚ) (cfg : Config) (sk : Skeleton) (st : PoseState)
    (pose_deg : List (String × (ℚ × ℚ × ℚ))) (h : cfg.preview_flex_deg = 0) :
    apply_pose d cfg sk st pose_deg =
      pose_deg.foldl (pose_step d cfg sk (build_hinge_map cfg sk)) st := by
  unfold apply_pose
  rw [if_neg (not_not_intro h)]

lemma pose_foldl_warnings_mem (d : ℚ) (cfg : Config) (sk : Skeleton)
    (m : List (String × String)) (l : List (String × (ℚ × ℚ × ℚ))) :
    ∀ (s : PoseState) (w : String), w ∈ s.warnings →
      w ∈ (List.foldl (pose_step d cfg sk m) s l).warnings := by
  induction l with
  | nil => intro s w hw; exact hw
  | cons e rest ih =>
    intro s w hw
    simp only [List.foldl_cons]
    exact ih _ w (set_euler_warnings_mem s _ _ _ _ m w hw)

lemma pose_foldl_warning_missing (d : ℚ) (cfg : Config) (sk : Skeleton)
    (m : List (String × String)) (l : List (String × (ℚ × ℚ × ℚ))) :
    ∀ (s : PoseState) (n : String) (v : ℚ × ℚ × ℚ), (n, v) ∈ l →
      Skeleton.get sk (swap_lr_key cfg n) = none →
      ("[WARN] Missing bone: " ++ swap_lr_key cfg n) ∈
        (List.foldl (pose_step d cfg sk m) s l).warnings := by
  induction l with
  | nil => intro s n v hmem _; simp at hmem
  | cons e rest ih =>
    intro s n v hmem habs
    simp only [List.foldl_cons]
    rcases List.mem_cons.mp hmem with he | he
    · subst he
      apply pose_foldl_warnings_mem
      unfold pose_step
      rw [set_euler_missing s _ _ _ _ m habs]
      simp
    · exact ih _ n v he habs

lemma reset_fold_point (sk : Skeleton) : ∀ (l : List String) (buf : String → Vec3) (b : String),
    List.foldl (fun bf name =>
      match Skeleton.get sk name with
      | some _ => Function.update bf name Vec3.zero
      | none => bf) buf l b =
      if b ∈ l ∧ (Skeleton.get sk b).isSome = true then Vec3.zero else buf b := by
  intro l
  induction l with
  | nil => intro buf b; simp
  | cons n rest ih =>
    intro buf b
    simp only [List.foldl_cons]
    rw [ih]
    rcases h1 : Skeleton.get sk n with _ | db
    · by_cases hb : b = n
      · subst hb
        simp [h1, List.mem_cons]
      · simp only [List.mem_cons, hb, false_or]
    · by_cases hb : b = n
      · subst hb
        simp [h1, List.mem_cons, Function.update_same]
      · simp only [List.mem_cons, hb, false_or, Function.update_noteq hb]

lemma reset_rotations_point (cfg : Config) (sk : Skeleton) (buf : String → Vec3) (b : String) :
    reset_rotations cfg sk buf b =
      if b ∈ cfg.bones_order ∧ (Skeleton.get sk b).isSome = true then Vec3.zero
      else buf b :=
  reset_fold_point sk cfg.bones_order buf b

lemma pose_foldl_buf_absent (d : ℚ) (cfg : Config) (sk : Skeleton)
    (m : List (String × String)) (l : List (String × (ℚ × ℚ × ℚ))) :
    ∀ (s : PoseState) (b : String), Skeleton.get sk b = none →
      (List.foldl (pose_step d cfg sk m) s l).buf b = s.buf b := by
  induction l with
  | nil => intro s b _; rfl
  | cons e rest ih =>
    intro s b habs
    simp only [List.foldl_cons]
    rw [ih _ b habs]
    by_cases hb : b = swap_lr_key cfg e.1
    · unfold pose_step
      rw [set_euler_missing s _ _ _ _ m (hb ▸ habs)]
    · exact set_euler_buf_ne s _ _ _ _ m b hb

lemma preview_foldl_buf_absent (d : ℚ) (cfg : Config) (sk : Skeleton)
    (m : List (String × String)) (l : List (String × String)) :
    ∀ (s : PoseState) (b : String), Skeleton.get sk b = none →
      (List.foldl (preview_step d cfg sk m) s l).buf b = s.buf b := by
  induction l with
  | nil => intro s b _; rfl
  | cons pc rest ih =>
    intro s b habs
    simp only [List.foldl_cons]
    rw [ih _ b habs]
    by_cases hb : b = swap_lr_key cfg pc.2
    · rw [preview_step_missing d cfg sk m s pc (hb ▸ habs)]
    · exact preview_step_buf_ne d cfg sk m s pc b hb

lemma apply_pose_buf_absent (d : ℚ) (cfg : Config) (sk : Skeleton) (st : PoseState)
    (pose_deg : List (String × (ℚ × ℚ × ℚ))) (b : String)
    (h : Skeleton.get sk b = none) :
    (apply_pose d cfg sk st pose_deg).buf b = st.buf b := by
  by_cases hp : cfg.preview_flex_deg = 0
  · rw [apply_pose_normal d cfg sk st pose_deg hp]
    exact pose_foldl_buf_absent d cfg sk _ pose_deg st b h
  · rw [apply_pose_preview d cfg sk st pose_deg hp]
    exact preview_foldl_buf_absent d cfg sk _ cfg.hinge_pairs st b h

lemma apply_pose_buf_congr (d : ℚ) (cfg : Config) (sk : Skeleton) (s s' : PoseState)
    (pose_deg : List (String × (ℚ × ℚ × ℚ))) (b : String) (h : s.buf b = s'.buf b) :
    (apply_pose d cfg sk s pose_deg).buf b = (apply_pose d cfg sk s' pose_deg).buf b := by
  by_cases hp : cfg.preview_flex_deg = 0
  · rw [apply_pose_normal d cfg sk s pose_deg hp, apply_pose_normal d cfg sk s' pose_deg hp]
    exact pose_foldl_buf_congr d cfg sk _ pose_deg s s' b h
  · rw [apply_pose_preview d cfg sk s pose_deg hp, apply_pose_preview d cfg sk s' pose_deg hp]
    exact preview_foldl_buf_congr d cfg sk _ cfg.hinge_pairs s s' b h

lemma last_axis_nil (cfg : Config) (sk : Skeleton) (c' : String) :
    last_axis cfg sk [] c' = none := rfl

lemma last_axis_cons (cfg : Config) (sk : Skeleton) (pc : String × String)
    (rest : List (String × String)) (c' : String) :
    last_axis cfg sk (pc :: rest) c' =
      match last_axis cfg sk rest c' with
      | some a => some a
      | none => entry_axis cfg sk pc c' := rfl

lemma hinge_entry_for_fst (cfg : Config) (sk : Skeleton) (pc : String × String)
    (e : String × String) (h : hinge_entry_for cfg sk pc = some e) :
    e.1 = swap_lr_key cfg pc.2 := by
  unfold hinge_entry_for at h
  rcases h1 : Skeleton.get sk (swap_lr_key cfg pc.1) with _ | pdb <;>
    rcases h2 : Skeleton.get sk (swap_lr_key cfg pc.2) with _ | cdb <;>
      rw [h1, h2] at h
  · simp at h
  · simp at h
  · simp at h
  · simp only [Option.some.injEq] at h
    rw [← h]

lemma entry_axis_ne (cfg : Config) (sk : Skeleton) (pc : String × String) (c' : String)
    (hne : swap_lr_key cfg pc.2 ≠ c') : entry_axis cfg sk pc c' = none := by
  unfold entry_axis
  rcases h : hinge_entry_for cfg sk pc with _ | e
  · rfl
  · show (if e.1 = c' then some e.2 else none) = none
    rw [hinge_entry_for_fst cfg sk pc e h, if_neg hne]

lemma lookup_build_fold (cfg : Config) (sk : Skeleton) :
    ∀ (l acc : List (String × String)) (c' : String),
      List.lookup c' (List.foldl (fun amap pc =>
          match hinge_entry_for cfg sk pc with
          | some e => e :: amap
          | none => amap) acc l) =
        match last_axis cfg sk l c' with
        | some a => some a
        | none => List.lookup c' acc := by
  intro l
  induction l with
  | nil => intro acc c'; simp [last_axis]
  | cons pc rest ih =>
    intro acc c'
    simp only [List.foldl_cons]
    rw [ih, last_axis_cons]
    rcases h : last_axis cfg sk rest c' with _ | a
    · dsimp only
      unfold entry_axis
      rcases he : hinge_entry_for cfg sk pc with _ | e
      · rfl
      · obtain ⟨k, v⟩ := e
        dsimp only
        by_cases hk : c' = k
        · subst hk
          simp [List.lookup]
        · have hbeq : (c' == k) = false := by simp [hk]
          rw [if_neg (fun hh => hk hh.symm)]
          simp [List.lookup, hbeq]
    · rfl

lemma build_hinge_map_lookup (cfg : Config) (sk : Skeleton) (c' : String) :
    List.lookup c' (build_hinge_map cfg sk) = last_axis cfg sk cfg.hinge_pairs c' := by
  unfold build_hinge_map
  rw [lookup_build_fold cfg sk cfg.hinge_pairs [] c']
  rcases last_axis cfg sk cfg.hinge_pairs c' with _ | a <;> rfl

lemma last_axis_mem_source (cfg : Config) (sk : Skeleton) :
    ∀ (l : List (String × String)) (c' : String) (a : String),
      last_axis cfg sk l c' = some a →
      ∃ pc, pc ∈ l ∧ entry_axis cfg sk pc c' = some a := by
  intro l
  induction l with
  | nil => intro c' a h; simp [last_axis_nil] at h
  | cons pc rest ih =>
    intro c' a h
    rw [last_axis_cons] at h
    rcases h1 : last_axis cfg sk rest c' with _ | a' <;> rw [h1] at h
    · exact ⟨pc, List.mem_cons_self pc rest, h⟩
    · obtain ⟨pc', hm, he⟩ := ih c' a' h1
      simp only [Option.some.injEq] at h
      exact ⟨pc', List.mem_cons_of_mem pc hm, h ▸ he⟩

lemma last_axis_of_mem (cfg : Config) (sk : Skeleton) :
    ∀ (l : List (String × String)) (c' v : String) (pc₀ : String × String),
      pc₀ ∈ l → entry_axis cfg sk pc₀ c' = some v →
      (∀ pc, pc ∈ l → entry_axis cfg sk pc c' = none ∨ entry_axis cfg sk pc c' = some v) →
      last_axis cfg sk l c' = some v := by
  intro l
  induction l with
  | nil => intro c' v pc₀ hm _ _; simp at hm
  | cons pc rest ih =>
    intro c' v pc₀ hm he hall
    rw [last_axis_cons]
    rcases List.mem_cons.mp hm with h0 | h0
    · rcases h1 : last_axis cfg sk rest c' with _ | a
      · dsimp only
        rw [← h0, he]
      · dsimp only
        obtain ⟨pc', hm', he'⟩ := last_axis_mem_source cfg sk rest c' a h1
        rcases hall pc' (List.mem_cons_of_mem pc hm') with hc | hc
        · rw [hc] at he'; exact absurd he' (by simp)
        · rw [hc] at he'
          simp only [Option.some.injEq] at he'
          rw [he']
    · rw [ih c' v pc₀ h0 he (fun pc' hm' => hall pc' (List.mem_cons_of_mem pc hm'))]

lemma last_axis_of_unique (cfg : Config) (sk : Skeleton) :
    ∀ (l : List (String × String)) (c' v : String) (pc₀ : String × String),
      pc₀ ∈ l → entry_axis cfg sk pc₀ c' = some v →
      (∀ pc, pc ∈ l → entry_axis cfg sk pc c' = none ∨ pc = pc₀) →
      last_axis cfg sk l c' = some v := by
  intro l c' v pc₀ hm he hall
  apply last_axis_of_mem cfg sk l c' v pc₀ hm he
  intro pc hmem
  rcases hall pc hmem with hc | hc
  · exact Or.inl hc
  · rw [hc, he]
    exact Or.inr rfl

lemma argmax3_le (s0 s1 s2 : ℚ) (j : Fin 3) :
    Vec3.comp ⟨s0, s1, s2⟩ j ≤ Vec3.comp ⟨s0, s1, s2⟩ (argmax3 s0 s1 s2) := by
  unfold argmax3
  fin_cases j <;> split_ifs <;> simp [Vec3.comp] <;> linarith

lemma argmax3_first (s0 s1 s2 : ℚ) (j : Fin 3) (hj : j < argmax3 s0 s1 s2) :
    Vec3.comp ⟨s0, s1, s2⟩ j < Vec3.comp ⟨s0, s1, s2⟩ (argmax3 s0 s1 s2) := by
  unfold argmax3 at hj ⊢
  fin_cases j <;> split_ifs at hj ⊢ <;> simp_all [Vec3.comp] <;> linarith

lemma argmin3_le (s0 s1 s2 : ℚ) (j : Fin 3) :
    Vec3.comp ⟨s0, s1, s2⟩ (argmin3 s0 s1 s2) ≤ Vec3.comp ⟨s0, s1, s2⟩ j := by
  unfold argmin3
  fin_cases j <;> split_ifs <;> simp [Vec3.comp] <;> linarith

lemma argmin3_first (s0 s1 s2 : ℚ) (j : Fin 3) (hj : j < argmin3 s0 s1 s2) :
    Vec3.comp ⟨s0, s1, s2⟩ (argmin3 s0 s1 s2) < Vec3.comp ⟨s0, s1, s2⟩ j := by
  unfold argmin3 at hj ⊢
  fin_cases j <;> split_ifs at hj ⊢ <;> simp_all [Vec3.comp] <;> linarith

lemma hinge_entry_for_inv (cfg : Config) (sk : Skeleton) (pc : String × String)
    (e : String × String) (h : hinge_entry_for cfg sk pc = some e) :
    ∃ pdb cdb, Skeleton.get sk (swap_lr_key cfg pc.1) = some pdb ∧
      Skeleton.get sk (swap_lr_key cfg pc.2) = some cdb ∧
      e = (swap_lr_key cfg pc.2,
        (match List.lookup (swap_lr_key cfg pc.2) cfg.hinge_axis_override with
         | some a => if valid_axis a then some a else none
         | none => none).getD (axis_name (compute_hinge_axis_for_child pdb cdb))) := by
  unfold hinge_entry_for at h
  rcases h1 : Skeleton.get sk (swap_lr_key cfg pc.1) with _ | pdb <;>
    rcases h2 : Skeleton.get sk (swap_lr_key cfg pc.2) with _ | cdb <;>
      rw [h1, h2] at h
  · simp at h
  · simp at h
  · simp at h
  · simp only [Option.some.injEq] at h
    exact ⟨pdb, cdb, rfl, rfl, h.symm⟩

lemma entry_axis_inv (cfg : Config) (sk : Skeleton) (pc : String × String)
    (c' a : String) (he : entry_axis cfg sk pc c' = some a) :
    hinge_entry_for cfg sk pc = some (c', a) := by
  unfold entry_axis at he
  rcases hh : hinge_entry_for cfg sk pc with _ | e <;> rw [hh] at he
  · simp at he
  · dsimp only at he
    split_ifs at he with hc
    simp only [Option.some.injEq] at he
    rw [← hc, ← he]

lemma entry_axis_present_override (cfg : Config) (sk : Skeleton) (p c : String)
    (pdb cdb : RestBone) (v : String)
    (hp : Skeleton.get sk (swap_lr_key cfg p) = some pdb)
    (hc : Skeleton.get sk (swap_lr_key cfg c) = some cdb)
    (ho : List.lookup (swap_lr_key cfg c) cfg.hinge_axis_override = some v)
    (hv : valid_axis v = true) :
    entry_axis cfg sk (p, c) (swap_lr_key cfg c) = some v := by
  unfold entry_axis hinge_entry_for
  dsimp only
  rw [hp, hc, ho]
  simp [hv]

lemma entry_axis_present_geometry (cfg : Config) (sk : Skeleton) (p c : String)
    (pdb cdb : RestBone)
    (hp : Skeleton.get sk (swap_lr_key cfg p) = some pdb)
    (hc : Skeleton.get sk (swap_lr_key cfg c) = some cdb)
    (ho : List.lookup (swap_lr_key cfg c) cfg.hinge_axis_override = none ∨
      ∃ v, List.lookup (swap_lr_key cfg c) cfg.hinge_axis_override = some v ∧
        valid_axis v = false) :
    entry_axis cfg sk (p, c) (swap_lr_key cfg c) =
      some (axis_name (compute_hinge_axis_for_child pdb cdb)) := by
  unfold entry_axis hinge_entry_for
  dsimp only
  rw [hp, hc]
  rcases ho with ho | ⟨v, ho, hv⟩
  · rw [ho]
    simp
  · rw [ho]
    simp [hv]

lemma entry_axis_of_override_valid (cfg : Config) (sk : Skeleton) (pc : String × String)
    (c' a v : String)
    (ho : List.lookup c' cfg.hinge_axis_override = some v) (hv : valid_axis v = true)
    (he : entry_axis cfg sk pc c' = some a) : a = v := by
  have hef := entry_axis_inv cfg sk pc c' a he
  obtain ⟨pdb, cdb, h1, h2, h3⟩ := hinge_entry_for_inv cfg sk pc (c', a) hef
  have hc' : c' = swap_lr_key cfg pc.2 := congrArg Prod.fst h3
  rw [← hc', ho] at h3
  have := congrArg Prod.snd h3
  simp only at this
  rw [this]
  simp [hv]

lemma pose_step_comp_preserve (d : ℚ) (cfg : Config) (sk : Skeleton)
    (m : List (String × String)) (s : PoseState) (e : String × (ℚ × ℚ × ℚ))
    (b a : String) (j : Fin 3) (hm : List.lookup b m = some a)
    (hp : cfg.prefer_y_as_flex = true) (hj : j ≠ axis_index a)
    (h0 : (s.buf b).comp j = 0) :
    ((pose_step d cfg sk m s e).buf b).comp j = 0 := by
  unfold pose_step
  by_cases hb : b = swap_lr_key cfg e.1
  · rcases h1 : Skeleton.get sk (swap_lr_key cfg e.1) with _ | db
    · rw [set_euler_missing s _ _ _ _ m h1]
      exact h0
    · rw [set_euler_hinge s _ _ _ _ m db a h1 (hb ▸ hm) hp]
      dsimp only
      rw [hb, Function.update_same, ← hb]
      rw [apply_flex_comp_ne _ a _ j hj]
      exact h0
  · rw [set_euler_buf_ne s _ _ _ _ m b hb]
    exact h0

lemma pose_foldl_comp_preserve (d : ℚ) (cfg : Config) (sk : Skeleton)
    (m : List (String × String)) (l : List (String × (ℚ × ℚ × ℚ)))
    (b a : String) (j : Fin 3) (hm : List.lookup b m = some a)
    (hp : cfg.prefer_y_as_flex = true) (hj : j ≠ axis_index a) :
    ∀ (s : PoseState), (s.buf b).comp j = 0 →
      ((List.foldl (pose_step d cfg sk m) s l).buf b).comp j = 0 := by
  induction l with
  | nil => intro s h0; exact h0
  | cons e rest ih =>
    intro s h0
    simp only [List.foldl_cons]
    exact ih _ (pose_step_comp_preserve d cfg sk m s e b a j hm hp hj h0)

lemma preview_step_comp_preserve (d : ℚ) (cfg : Config) (sk : Skeleton)
    (m : List (String × String)) (s : PoseState) (pc : String × String)
    (b a : String) (j : Fin 3) (hm : List.lookup b m = some a)
    (hj : j ≠ axis_index a) (h0 : (s.buf b).comp j = 0) :
    ((preview_step d cfg sk m s pc).buf b).comp j = 0 := by
  by_cases hb : b = swap_lr_key cfg pc.2
  · rcases h1 : Skeleton.get sk (swap_lr_key cfg pc.2) with _ | db
    · rw [preview_step_missing d cfg sk m s pc h1]
      exact h0
    · rcases h2 : List.lookup (swap_lr_key cfg pc.2) m with _ | a'
      · rw [preview_step_nolookup d cfg sk m s pc db h1 h2]
        exact h0
      · have ha : a' = a := by
          rw [← hb] at h2
          rw [h2] at hm
          exact (Option.some.injEq _ _ ▸ hm)
        rw [preview_step_write d cfg sk m s pc db a' h1 h2]
        dsimp only
        rw [hb, Function.update_same, ← hb, ha]
        rw [apply_flex_comp_ne _ a _ j hj]
        exact h0
  · rw [preview_step_buf_ne d cfg sk m s pc b hb]
    exact h0

lemma preview_foldl_comp_preserve (d : ℚ) (cfg : Config) (sk : Skeleton)
    (m : List (String × String)) (l : List (String × String))
    (b a : String) (j : Fin 3) (hm : List.lookup b m = some a)
    (hj : j ≠ axis_index a) :
    ∀ (s : PoseState), (s.buf b).comp j = 0 →
      ((List.foldl (preview_step d cfg sk m) s l).buf b).comp j = 0 := by
  induction l with
  | nil => intro s h0; exact h0
  | cons pc rest ih =>
    intro s h0
    simp only [List.foldl_cons]
    exact ih _ (preview_step_comp_preserve d cfg sk m s pc b a j hm hj h0)

lemma preview_foldl_write_once (d : ℚ) (cfg : Config) (sk : Skeleton)
    (m : List (String × String)) :
    ∀ (l : List (String × String)) (s : PoseState) (p c : String) (db : RestBone)
      (a : String),
      (l.map (fun pc => swap_lr_key cfg pc.2)).Nodup → (p, c) ∈ l →
      Skeleton.get sk (swap_lr_key cfg c) = some db →
      List.lookup (swap_lr_key cfg c) m = some a →
      (List.foldl (preview_step d cfg sk m) s l).buf (swap_lr_key cfg c) =
        apply_flex_on_axis (s.buf (swap_lr_key cfg c)) a
          (d * (((List.lookup (swap_lr_key cfg c) cfg.hinge_sign_override).getD 1) *
            cfg.preview_flex_deg)) := by
  intro l
  induction l with
  | nil => intro s p c db a _ hm _ _; simp at hm
  | cons pc₀ rest ih =>
    intro s p c db a hnd hm hdb hlk
    simp only [List.map_cons, List.nodup_cons] at hnd
    simp only [List.foldl_cons]
    rcases List.mem_cons.mp hm with h0 | h0
    · have hsw : swap_lr_key cfg pc₀.2 = swap_lr_key cfg c := by rw [← h0]
      have hnin : swap_lr_key cfg c ∉ rest.map (fun pc => swap_lr_key cfg pc.2) :=
        hsw ▸ hnd.1
      rw [preview_foldl_buf_ne d cfg sk m rest _ _ hnin]
      rw [preview_step_write d cfg sk m s pc₀ db a (hsw ▸ hdb) (hsw ▸ hlk)]
      dsimp only
      rw [hsw, Function.update_same]
    · have hin : swap_lr_key cfg c ∈ rest.map (fun pc => swap_lr_key cfg pc.2) := by
        simp only [List.mem_map]
        exact ⟨(p, c), h0, rfl⟩
      have hne : swap_lr_key cfg c ≠ swap_lr_key cfg pc₀.2 := by
        intro hh
        exact hnd.1 (hh ▸ hin)
      rw [ih _ p c db a hnd.2 h0 hdb hlk,
        preview_step_buf_ne d cfg sk m s pc₀ _ hne]

lemma comp_triple (f : Fin 3 → ℚ) (j : Fin 3) :
    Vec3.comp ⟨f 0, f 1, f 2⟩ j = f j := by
  fin_cases j <;> rfl

lemma argmax3_le' (f : Fin 3 → ℚ) (j : Fin 3) :
    f j ≤ f (argmax3 (f 0) (f 1) (f 2)) := by
  have h := argmax3_le (f 0) (f 1) (f 2) j
  rwa [comp_triple f j, comp_triple f _] at h

lemma argmax3_first' (f : Fin 3 → ℚ) (j : Fin 3) (hj : j < argmax3 (f 0) (f 1) (f 2)) :
    f j < f (argmax3 (f 0) (f 1) (f 2)) := by
  have h := argmax3_first (f 0) (f 1) (f 2) j hj
  rwa [comp_triple f j, comp_triple f _] at h

lemma argmin3_le' (f : Fin 3 → ℚ) (j : Fin 3) :
    f (argmin3 (f 0) (f 1) (f 2)) ≤ f j := by
  have h := argmin3_le (f 0) (f 1) (f 2) j
  rwa [comp_triple f j, comp_triple f _] at h

lemma argmin3_first' (f : Fin 3 → ℚ) (j : Fin 3) (hj : j < argmin3 (f 0) (f 1) (f 2)) :
    f (argmin3 (f 0) (f 1) (f 2)) < f j := by
  have h := argmin3_first (f 0) (f 1) (f 2) j hj
  rwa [comp_triple f j, comp_triple f _] at h

/-! ## Claim theorems -/

/-- C3: for every parent/child rest-bone pair, when the (scale-compensated)
collinearity measure of `u_parent × u_child` is at or above the threshold,
geometry-based hinge resolution returns the first index maximising the
(squared-surrogate) absolute dot product of the child's local axes against
the bend normal — every other index scores no higher, and every smaller
index scores strictly lower (so an exact tie is won by the lower index,
X before Y before Z); below the threshold it returns the first index
minimising the score against the child direction, with the same
lowest-index tie-break. -/
theorem C3_geometry_resolution (parent_db child_db : RestBone) :
    (eps_len ^ 2 * norm_scale_sq (vec_from_bone parent_db) *
        norm_scale_sq (vec_from_bone child_db) ≤
        ((vec_from_bone parent_db).cross (vec_from_bone child_db)).lenSq →
      (∀ j : Fin 3,
        score (child_axis child_db j)
            ((vec_from_bone parent_db).cross (vec_from_bone child_db)) ≤
          score (child_axis child_db (compute_hinge_axis_for_child parent_db child_db))
            ((vec_from_bone parent_db).cross (vec_from_bone child_db))) ∧
      (∀ j : Fin 3, j < compute_hinge_axis_for_child parent_db child_db →
        score (child_axis child_db j)
            ((vec_from_bone parent_db).cross (vec_from_bone child_db)) <
          score (child_axis child_db (compute_hinge_axis_for_child parent_db child_db))
            ((vec_from_bone parent_db).cross (vec_from_bone child_db)))) ∧
    (((vec_from_bone parent_db).cross (vec_from_bone child_db)).lenSq <
        eps_len ^ 2 * norm_scale_sq (vec_from_bone parent_db) *
          norm_scale_sq (vec_from_bone child_db) →
      (∀ j : Fin 3,
        score (child_axis child_db (compute_hinge_axis_for_child parent_db child_db))
            (vec_from_bone child_db) ≤
          score (child_axis child_db j) (vec_from_bone child_db)) ∧
      (∀ j : Fin 3, j < compute_hinge_axis_for_child parent_db child_db →
        score (child_axis child_db (compute_hinge_axis_for_child parent_db child_db))
            (vec_from_bone child_db) <
          score (child_axis child_db j) (vec_from_bone child_db))) := by
  constructor
  · intro h
    have hi : compute_hinge_axis_for_child parent_db child_db =
        argmax3
          (score (child_axis child_db 0)
            ((vec_from_bone parent_db).cross (vec_from_bone child_db)))
          (score (child_axis child_db 1)
            ((vec_from_bone parent_db).cross (vec_from_bone child_db)))
          (score (child_axis child_db 2)
            ((vec_from_bone parent_db).cross (vec_from_bone child_db))) := by
      simp only [compute_hinge_axis_for_child]
      rw [if_neg (not_lt.mpr h)]
      rfl
    rw [hi]
    constructor
    · intro j
      exact argmax3_le'
        (fun i => score (child_axis child_db i)
          ((vec_from_bone parent_db).cross (vec_from_bone child_db))) j
    · intro j hj
      exact argmax3_first'
        (fun i => score (child_axis child_db i)
          ((vec_from_bone parent_db).cross (vec_from_bone child_db))) j hj
  · intro h
    have hi : compute_hinge_axis_for_child parent_db child_db =
        argmin3
          (score (child_axis child_db 0) (vec_from_bone child_db))
          (score (child_axis child_db 1) (vec_from_bone child_db))
          (score (child_axis child_db 2) (vec_from_bone child_db)) := by
      simp only [compute_hinge_axis_for_child]
      rw [if_pos h]
      rfl
    rw [hi]
    constructor
    · intro j
      exact argmin3_le'
        (fun i => score (child_axis child_db i) (vec_from_bone child_db)) j
    · intro j hj
      exact argmin3_first'
        (fun i => score (child_axis child_db i) (vec_from_bone child_db)) j hj

/-- C3 witness: on the spec §8 elbow geometry the pair is non-degenerate and
the resolved index satisfies the argmax characterisation. -/
theorem C3_geometry_resolution_witness :
    (eps_len ^ 2 * norm_scale_sq (vec_from_bone upperarmL) *
        norm_scale_sq (vec_from_bone lowerarmL) ≤
        ((vec_from_bone upperarmL).cross (vec_from_bone lowerarmL)).lenSq) ∧
    ((∀ j : Fin 3,
        score (child_axis lowerarmL j)
            ((vec_from_bone upperarmL).cross (vec_from_bone lowerarmL)) ≤
          score (child_axis lowerarmL (compute_hinge_axis_for_child upperarmL lowerarmL))
            ((vec_from_bone upperarmL).cross (vec_from_bone lowerarmL))) ∧
      (∀ j : Fin 3, j < compute_hinge_axis_for_child upperarmL lowerarmL →
        score (child_axis lowerarmL j)
            ((vec_from_bone upperarmL).cross (vec_from_bone lowerarmL)) <
          score (child_axis lowerarmL (compute_hinge_axis_for_child upperarmL lowerarmL))
            ((vec_from_bone upperarmL).cross (vec_from_bone lowerarmL)))) :=
  ⟨by with_unfolding_all decide,
   (C3_geometry_resolution upperarmL lowerarmL).1 (by with_unfolding_all decide)⟩

/-- C10: in hinge flex extraction the Y input is used exactly when its
absolute value (the inputs of `set_euler` are already converted to radians)
exceeds `1e-6`; a Y at or below that magnitude — even a nonzero one — is
discarded in favour of the X/Z fallback, and an exact tie `|rx| = |rz|` is
covered by the `|rz| ≤ |rx|` branch, which picks the X channel. -/
theorem C10_flex_epsilon_tie (cfg : Config) (sk : Skeleton) (st : PoseState)
    (n : String) (rx ry rz : ℚ) (m : List (String × String)) (db : RestBone) (a : String)
    (hp : cfg.prefer_y_as_flex = true) (hdb : Skeleton.get sk n = some db)
    (hm : List.lookup n m = some a) :
    (eps_flex < |ry| →
      (set_euler cfg sk st n rx ry rz m).buf n =
        apply_flex_on_axis (st.buf n) a
          (((List.lookup n cfg.hinge_sign_override).getD 1) * ry)) ∧
    (|ry| ≤ eps_flex → |rz| ≤ |rx| →
      (set_euler cfg sk st n rx ry rz m).buf n =
        apply_flex_on_axis (st.buf n) a
          (((List.lookup n cfg.hinge_sign_override).getD 1) * rx)) ∧
    (|ry| ≤ eps_flex → |rx| < |rz| →
      (set_euler cfg sk st n rx ry rz m).buf n =
        apply_flex_on_axis (st.buf n) a
          (((List.lookup n cfg.hinge_sign_override).getD 1) * rz)) := by
  rw [set_euler_hinge st n rx ry rz m db a hdb hm hp]
  dsimp only
  rw [Function.update_same]
  refine ⟨fun h1 => ?_, fun h1 h2 => ?_, fun h1 h2 => ?_⟩
  · rw [if_pos h1]
  · rw [if_neg (not_lt.mpr h1), if_pos h2]
  · rw [if_neg (not_lt.mpr h1), if_neg (not_le.mpr h2)]

/-- C10 witness: with `ry = 1/2000000` (nonzero but at most `1e-6`) and the
exact tie `|rx| = |rz|` (`rx = 5`, `rz = -5`), the X channel is selected. -/
theorem C10_flex_epsilon_tie_witness :
    |(1 : ℚ)/2000000| ≤ eps_flex ∧ |(-5 : ℚ)| ≤ |(5 : ℚ)| ∧
    (set_euler defaultConfig sk0 st0 "lowerarm_l" 5 (1/2000000) (-5)
        (build_hinge_map defaultConfig sk0)).buf "lowerarm_l" =
      apply_flex_on_axis (st0.buf "lowerarm_l") "x"
        (((List.lookup "lowerarm_l" defaultConfig.hinge_sign_override).getD 1) * 5) :=
  ⟨by with_unfolding_all decide, by with_unfolding_all decide,
   (C10_flex_epsilon_tie defaultConfig sk0 st0 "lowerarm_l" 5 (1/2000000) (-5)
      (build_hinge_map defaultConfig sk0) lowerarmL "x"
      (by with_unfolding_all decide) (by with_unfolding_all decide)
      (by with_unfolding_all decide)).2.1
    (by with_unfolding_all decide) (by with_unfolding_all decide)⟩

/-- C8: for a bone the hinge map resolves to axis `a`, starting from a buffer
entry reset to zero, `apply_pose` leaves both non-hinge components of that
bone's entry at exactly zero (every write to a hinge-mapped bone, in the
normal path and the preview path alike, goes through `apply_flex_on_axis`
on the resolved axis only). -/
theorem C8_hinge_single_axis (d : ℚ) (cfg : Config) (sk : Skeleton)
    (pose_deg : List (String × (ℚ × ℚ × ℚ))) (st : PoseState) (b a : String) (j : Fin 3)
    (hp : cfg.prefer_y_as_flex = true)
    (hm : List.lookup b (build_hinge_map cfg sk) = some a)
    (h0 : st.buf b = Vec3.zero) (hj : j ≠ axis_index a) :
    ((apply_pose d cfg sk st pose_deg).buf b).comp j = 0 := by
  have h0' : (st.buf b).comp j = 0 := by
    rw [h0]
    fin_cases j <;> rfl
  by_cases hpr : cfg.preview_flex_deg = 0
  · rw [apply_pose_normal d cfg sk st pose_deg hpr]
    exact pose_foldl_comp_preserve d cfg sk _ pose_deg b a j hm hp hj st h0'
  · rw [apply_pose_preview d cfg sk st pose_deg hpr]
    exact preview_foldl_comp_preserve d cfg sk _ cfg.hinge_pairs b a j hm hj st h0'

/-- C8 witness: the elbow child resolves to axis X, and after applying a
30-degree Y-channel bend from the zero buffer its Y and Z components are both
exactly zero. -/
theorem C8_hinge_single_axis_witness :
    List.lookup "lowerarm_l" (build_hinge_map defaultConfig sk0) = some "x" ∧
    ((apply_pose 1 defaultConfig sk0 st0 pose30).buf "lowerarm_l").comp 1 = 0 ∧
    ((apply_pose 1 defaultConfig sk0 st0 pose30).buf "lowerarm_l").comp 2 = 0 :=
  ⟨by with_unfolding_all decide,
   C8_hinge_single_axis 1 defaultConfig sk0 pose30 st0 "lowerarm_l" "x" 1
     (by with_unfolding_all decide) (by with_unfolding_all decide)
     (by with_unfolding_all decide) (by with_unfolding_all decide),
   C8_hinge_single_axis 1 defaultConfig sk0 pose30 st0 "lowerarm_l" "x" 2
     (by with_unfolding_all decide) (by with_unfolding_all decide)
     (by with_unfolding_all decide) (by with_unfolding_all decide)⟩

/-- C6: for a hinge pair whose (swapped) endpoints are present, a
`hingeAxisOverride` entry with a valid label is the resolved hinge axis (and
the flex write of `set_euler` then lands on that axis via
`apply_flex_on_axis`), while an entry with an invalid label is ignored and
resolution falls through to geometry. -/
theorem C6_override_precedence (cfg : Config) (sk : Skeleton) (p c : String)
    (pdb cdb : RestBone) (v : String)
    (hmem : (p, c) ∈ cfg.hinge_pairs)
    (hp : Skeleton.get sk (swap_lr_key cfg p) = some pdb)
    (hc : Skeleton.get sk (swap_lr_key cfg c) = some cdb)
    (ho : List.lookup (swap_lr_key cfg c) cfg.hinge_axis_override = some v) :
    (valid_axis v = true →
      List.lookup (swap_lr_key cfg c) (build_hinge_map cfg sk) = some v ∧
      (∀ (st : PoseState) (rx ry rz : ℚ), cfg.prefer_y_as_flex = true →
        (set_euler cfg sk st (swap_lr_key cfg c) rx ry rz
            (build_hinge_map cfg sk)).buf (swap_lr_key cfg c) =
          apply_flex_on_axis (st.buf (swap_lr_key cfg c)) v
            (((List.lookup (swap_lr_key cfg c) cfg.hinge_sign_override).getD 1) *
              (if eps_flex < |ry| then ry else if |rz| ≤ |rx| then rx else rz)))) ∧
    (valid_axis v = false →
      (∀ pc₁ ∈ cfg.hinge_pairs,
        swap_lr_key cfg pc₁.2 = swap_lr_key cfg c → pc₁ = (p, c)) →
      List.lookup (swap_lr_key cfg c) (build_hinge_map cfg sk) =
        some (axis_name (compute_hinge_axis_for_child pdb cdb))) := by
  constructor
  · intro hv
    have hlk : List.lookup (swap_lr_key cfg c) (build_hinge_map cfg sk) = some v := by
      rw [build_hinge_map_lookup]
      apply last_axis_of_mem cfg sk cfg.hinge_pairs _ v (p, c) hmem
      · exact entry_axis_present_override cfg sk p c pdb cdb v hp hc ho hv
      · intro pc₁ hpc
        rcases hee : entry_axis cfg sk pc₁ (swap_lr_key cfg c) with _ | aa
        · exact Or.inl rfl
        · exact Or.inr
            (by rw [entry_axis_of_override_valid cfg sk pc₁ _ aa v ho hv hee])
    refine ⟨hlk, fun st rx ry rz hpref => ?_⟩
    rw [set_euler_hinge st _ rx ry rz _ cdb v hc hlk hpref]
    dsimp only
    rw [Function.update_same]
  · intro hv huniq
    rw [build_hinge_map_lookup]
    apply last_axis_of_unique cfg sk cfg.hinge_pairs _ _ (p, c) hmem
    · exact entry_axis_present_geometry cfg sk p c pdb cdb hp hc (Or.inr ⟨v, ho, hv⟩)
    · intro pc₁ hpc
      by_cases hsw : swap_lr_key cfg pc₁.2 = swap_lr_key cfg c
      · exact Or.inr (huniq pc₁ hpc hsw)
      · exact Or.inl (entry_axis_ne cfg sk pc₁ _ hsw)

/-- C6 witness: a valid override `'z'` beats the geometry answer `'x'` for
the elbow child, and an invalid override `'q'` is ignored so geometry
resolves `'x'`. -/
theorem C6_override_precedence_witness :
    List.lookup "lowerarm_l" (build_hinge_map cfgZ sk0) = some "z" ∧
    List.lookup "lowerarm_l" (build_hinge_map cfgQ sk0) =
      some (axis_name (compute_hinge_axis_for_child upperarmL lowerarmL)) :=
  ⟨((C6_override_precedence cfgZ sk0 "upperarm_l" "lowerarm_l" upperarmL lowerarmL "z"
      (by with_unfolding_all decide) (by with_unfolding_all decide)
      (by with_unfolding_all decide) (by with_unfolding_all decide)).1
      (by with_unfolding_all decide)).1,
   (C6_override_precedence cfgQ sk0 "upperarm_l" "lowerarm_l" upperarmL lowerarmL "q"
      (by with_unfolding_all decide) (by with_unfolding_all decide)
      (by with_unfolding_all decide) (by with_unfolding_all decide)).2
      (by with_unfolding_all decide) (by with_unfolding_all decide)⟩

/-- C4: for a pose entry hitting a hinge-resolved bone, `apply_pose` extracts
one scalar from the converted angles (the Y channel when its magnitude
exceeds the epsilon, otherwise the larger-magnitude of X and Z, tie to X),
multiplies it by the sign override (default `+1`), and adds it to — rather
than overwriting — the current buffer value on the resolved axis, leaving the
other two components untouched. -/
theorem C4_hinge_flex_additive (d : ℚ) (cfg : Config) (sk : Skeleton) (st : PoseState)
    (n : String) (dx dy dz : ℚ) (db : RestBone) (a : String)
    (hpr : cfg.preview_flex_deg = 0) (hp : cfg.prefer_y_as_flex = true)
    (hdb : Skeleton.get sk (swap_lr_key cfg n) = some db)
    (hm : List.lookup (swap_lr_key cfg n) (build_hinge_map cfg sk) = some a) :
    (((apply_pose d cfg sk st [(n, (dx, dy, dz))]).buf (swap_lr_key cfg n)).comp
        (axis_index a) =
      (st.buf (swap_lr_key cfg n)).comp (axis_index a) +
        ((List.lookup (swap_lr_key cfg n) cfg.hinge_sign_override).getD 1) *
          (if eps_flex < |d * dy| then d * dy
           else if |d * dz| ≤ |d * dx| then d * dx else d * dz)) ∧
    (∀ j : Fin 3, j ≠ axis_index a →
      ((apply_pose d cfg sk st [(n, (dx, dy, dz))]).buf (swap_lr_key cfg n)).comp j =
        (st.buf (swap_lr_key cfg n)).comp j) := by
  rw [apply_pose_normal d cfg sk st _ hpr]
  simp only [List.foldl_cons, List.foldl_nil]
  unfold pose_step
  rw [set_euler_hinge st _ _ _ _ _ db a hdb hm hp]
  dsimp only
  rw [Function.update_same]
  constructor
  · exact apply_flex_comp_self _ a _
  · intro j hj
    exact apply_flex_comp_ne _ a _ j hj

/-- C4 witness: on a buffer holding `(1,2,3)` everywhere, a 30-degree
Y-channel bend on the elbow child adds onto the X component and leaves the
other components at their prior values. -/
theorem C4_hinge_flex_additive_witness :
    (((apply_pose 1 defaultConfig sk0 stNZ [("lowerarm_l", (0, 30, 0))]).buf
        (swap_lr_key defaultConfig "lowerarm_l")).comp (axis_index "x") =
      (stNZ.buf (swap_lr_key defaultConfig "lowerarm_l")).comp (axis_index "x") +
        ((List.lookup (swap_lr_key defaultConfig "lowerarm_l")
            defaultConfig.hinge_sign_override).getD 1) *
          (if eps_flex < |(1 : ℚ) * 30| then (1 : ℚ) * 30
           else if |(1 : ℚ) * 0| ≤ |(1 : ℚ) * 0| then (1 : ℚ) * 0 else (1 : ℚ) * 0)) ∧
    (∀ j : Fin 3, j ≠ axis_index "x" →
      ((apply_pose 1 defaultConfig sk0 stNZ [("lowerarm_l", (0, 30, 0))]).buf
          (swap_lr_key defaultConfig "lowerarm_l")).comp j =
        (stNZ.buf (swap_lr_key defaultConfig "lowerarm_l")).comp j) :=
  C4_hinge_flex_additive 1 defaultConfig sk0 stNZ "lowerarm_l" 0 30 0 lowerarmL "x"
    (by with_unfolding_all decide) (by with_unfolding_all decide)
    (by with_unfolding_all decide) (by with_unfolding_all decide)

/-- C9: with a nonzero preview-flex configuration, `apply_pose` never reads
the supplied pose (the result is the same for every pose), leaves every bone
that is not a (swapped) hinge-pair child at its pre-call buffer value, and —
when the swapped hinge children are pairwise distinct, as in the script's
`HINGE_PAIRS` — writes exactly the preview flex
(`radians(sign * PREVIEW_FLEX_DEG)`) onto the resolved hinge axis of each
hinge child present in the skeleton. -/
theorem C9_preview_short_circuit (d : ℚ) (cfg : Config) (sk : Skeleton) (st : PoseState)
    (pose_deg : List (String × (ℚ × ℚ × ℚ))) (hpre : cfg.preview_flex_deg ≠ 0) :
    (∀ pose', apply_pose d cfg sk st pose_deg = apply_pose d cfg sk st pose') ∧
    (∀ b, b ∉ cfg.hinge_pairs.map (fun pc => swap_lr_key cfg pc.2) →
      (apply_pose d cfg sk st pose_deg).buf b = st.buf b) ∧
    ((cfg.hinge_pairs.map (fun pc => swap_lr_key cfg pc.2)).Nodup →
      ∀ p c db a, (p, c) ∈ cfg.hinge_pairs →
        Skeleton.get sk (swap_lr_key cfg c) = some db →
        List.lookup (swap_lr_key cfg c) (build_hinge_map cfg sk) = some a →
        (apply_pose d cfg sk st pose_deg).buf (swap_lr_key cfg c) =
          apply_flex_on_axis (st.buf (swap_lr_key cfg c)) a
            (d * (((List.lookup (swap_lr_key cfg c) cfg.hinge_sign_override).getD 1) *
              cfg.preview_flex_deg))) := by
  refine ⟨fun pose' => ?_, fun b hb => ?_, fun hnd p c db a hmem hdb hlk => ?_⟩
  · rw [apply_pose_preview d cfg sk st pose_deg hpre,
      apply_pose_preview d cfg sk st pose' hpre]
  · rw [apply_pose_preview d cfg sk st pose_deg hpre]
    exact preview_foldl_buf_ne d cfg sk _ cfg.hinge_pairs st b hb
  · rw [apply_pose_preview d cfg sk st pose_deg hpre]
    exact preview_foldl_write_once d cfg sk _ cfg.hinge_pairs st p c db a hnd hmem hdb hlk

/-- C9 witness: with a 20-degree preview flex, the supplied pose is ignored,
`upperarm_l` keeps its pre-call value, and the elbow child receives exactly
the preview flex on its resolved axis X. -/
theorem C9_preview_short_circuit_witness :
    (apply_pose 1 cfgP sk0 stNZ pose30 = apply_pose 1 cfgP sk0 stNZ []) ∧
    ((apply_pose 1 cfgP sk0 stNZ pose30).buf "upperarm_l" = stNZ.buf "upperarm_l") ∧
    ((apply_pose 1 cfgP sk0 stNZ pose30).buf (swap_lr_key cfgP "lowerarm_l") =
      apply_flex_on_axis (stNZ.buf (swap_lr_key cfgP "lowerarm_l")) "x"
        (1 * (((List.lookup (swap_lr_key cfgP "lowerarm_l")
            cfgP.hinge_sign_override).getD 1) * cfgP.preview_flex_deg))) :=
  ⟨(C9_preview_short_circuit 1 cfgP sk0 stNZ pose30
      (by with_unfolding_all decide)).1 [],
   (C9_preview_short_circuit 1 cfgP sk0 stNZ pose30
      (by with_unfolding_all decide)).2.1 "upperarm_l" (by with_unfolding_all decide),
   (C9_preview_short_circuit 1 cfgP sk0 stNZ pose30
      (by with_unfolding_all decide)).2.2 (by with_unfolding_all decide)
     "upperarm_l" "lowerarm_l" lowerarmL "x" (by with_unfolding_all decide)
     (by with_unfolding_all decide) (by with_unfolding_all decide)⟩

lemma swap_lr_key_false (cfg : Config) (h : cfg.swap_lr = false) (x : String) :
    swap_lr_key cfg x = x := by
  simp [swap_lr_key, h]

lemma set_euler_cfg_congr (cfg cfg' : Config) (sk : Skeleton) (st : PoseState)
    (n : String) (rx ry rz : ℚ) (m : List (String × String))
    (h1 : cfg'.prefer_y_as_flex = cfg.prefer_y_as_flex)
    (h2 : cfg'.hinge_sign_override = cfg.hinge_sign_override) :
    set_euler cfg' sk st n rx ry rz m = set_euler cfg sk st n rx ry rz m := by
  unfold set_euler
  rw [h1, h2]

lemma hinge_entry_for_unswap (cfg cfg' : Config) (sk : Skeleton) (pc : String × String)
    (hsw : cfg'.swap_lr = false)
    (hov : cfg'.hinge_axis_override = cfg.hinge_axis_override) :
    hinge_entry_for cfg' sk (swap_lr_key cfg pc.1, swap_lr_key cfg pc.2) =
      hinge_entry_for cfg sk pc := by
  unfold hinge_entry_for
  dsimp only
  rw [swap_lr_key_false cfg' hsw, swap_lr_key_false cfg' hsw, hov]

lemma build_hinge_map_unswap (cfg cfg' : Config) (sk : Skeleton)
    (hsw : cfg'.swap_lr = false)
    (hov : cfg'.hinge_axis_override = cfg.hinge_axis_override)
    (hpairs : cfg'.hinge_pairs =
      cfg.hinge_pairs.map (fun pc => (swap_lr_key cfg pc.1, swap_lr_key cfg pc.2))) :
    build_hinge_map cfg' sk = build_hinge_map cfg sk := by
  unfold build_hinge_map
  rw [hpairs, List.foldl_map]
  congr 1
  funext amap pc
  rw [hinge_entry_for_unswap cfg cfg' sk pc hsw hov]

lemma preview_step_unswap (d : ℚ) (cfg cfg' : Config) (sk : Skeleton)
    (m : List (String × String)) (s : PoseState) (pc : String × String)
    (hsw : cfg'.swap_lr = false)
    (hsign : cfg'.hinge_sign_override = cfg.hinge_sign_override)
    (hpre : cfg'.preview_flex_deg = cfg.preview_flex_deg) :
    preview_step d cfg' sk m s (swap_lr_key cfg pc.1, swap_lr_key cfg pc.2) =
      preview_step d cfg sk m s pc := by
  unfold preview_step
  dsimp only
  rw [swap_lr_key_false cfg' hsw, hsign, hpre]

lemma pose_step_unswap (d : ℚ) (cfg cfg' : Config) (sk : Skeleton)
    (m : List (String × String)) (s : PoseState) (e : String × (ℚ × ℚ × ℚ))
    (hsw : cfg'.swap_lr = false)
    (hpref : cfg'.prefer_y_as_flex = cfg.prefer_y_as_flex)
    (hsign : cfg'.hinge_sign_override = cfg.hinge_sign_override) :
    pose_step d cfg' sk m s (swap_lr_key cfg e.1, e.2) =
      pose_step d cfg sk m s e := by
  unfold pose_step
  dsimp only
  rw [swap_lr_key_false cfg' hsw]
  exact set_euler_cfg_congr cfg cfg' sk s _ _ _ _ m hpref hsign

/-- C7: with mirroring enabled, `apply_pose` behaves exactly as the run with
mirroring disabled in which every write-target name — each pose key and both
endpoints of each hinge pair — has been substituted through the mirror map
once, up front; concretely, a mirrored left-knee pose writes the flex to the
right calf's buffer entry while the left calf stays at its reset value. -/
theorem C7_mirror_substitution :
    (∀ (d : ℚ) (cfg : Config) (sk : Skeleton) (st : PoseState)
       (pose_deg : List (String × (ℚ × ℚ × ℚ))), cfg.swap_lr = true →
      apply_pose d cfg sk st pose_deg =
        apply_pose d (unswapped cfg) sk st
          (pose_deg.map (fun e => (swap_lr_key cfg e.1, e.2)))) ∧
    ((apply_pose 1 cfgM skM st0 poseM).buf "calf_r" = ⟨5, 0, 0⟩ ∧
      (apply_pose 1 cfgM skM st0 poseM).buf "calf_l" = ⟨0, 0, 0⟩) := by
  constructor
  · intro d cfg sk st pose_deg _
    have hmap : build_hinge_map (unswapped cfg) sk = build_hinge_map cfg sk :=
      build_hinge_map_unswap cfg _ sk rfl rfl rfl
    by_cases h0 : cfg.preview_flex_deg = 0
    · rw [apply_pose_normal d cfg sk st pose_deg h0,
        apply_pose_normal d (unswapped cfg) sk st _
          (show (unswapped cfg).preview_flex_deg = 0 from h0),
        hmap, List.foldl_map]
      have hf : (fun (x : PoseState) (y : String × (ℚ × ℚ × ℚ)) =>
          pose_step d (unswapped cfg) sk (build_hinge_map cfg sk) x
            (swap_lr_key cfg y.1, y.2)) =
          pose_step d cfg sk (build_hinge_map cfg sk) := by
        funext x y
        exact pose_step_unswap d cfg _ sk _ x y rfl rfl rfl
      rw [hf]
    · rw [apply_pose_preview d cfg sk st pose_deg h0,
        apply_pose_preview d (unswapped cfg) sk st _
          (show (unswapped cfg).preview_flex_deg ≠ 0 from h0),
        hmap]
      rw [show (unswapped cfg).hinge_pairs =
          cfg.hinge_pairs.map
            (fun pc => (swap_lr_key cfg pc.1, swap_lr_key cfg pc.2)) from rfl]
      rw [List.foldl_map]
      have hf : (fun (x : PoseState) (y : String × String) =>
          preview_step d (unswapped cfg) sk (build_hinge_map cfg sk) x
            (swap_lr_key cfg y.1, swap_lr_key cfg y.2)) =
          preview_step d cfg sk (build_hinge_map cfg sk) := by
        funext x y
        exact preview_step_unswap d cfg _ sk _ x y rfl rfl rfl
      rw [hf]
  · exact ⟨by with_unfolding_all decide, by with_unfolding_all decide⟩

/-- C7 witness: the mirrored knee run equals the unmirrored run on the
pre-substituted pose and hinge pairs. -/
theorem C7_mirror_substitution_witness :
    apply_pose 1 cfgM skM st0 poseM =
      apply_pose 1 (unswapped cfgM) skM st0
        (poseM.map (fun e => (swap_lr_key cfgM e.1, e.2))) :=
  C7_mirror_substitution.1 1 cfgM skM st0 poseM (by with_unfolding_all decide)

lemma pose_foldl_filter (d : ℚ) (cfg : Config) (sk : Skeleton)
    (m : List (String × String)) :
    ∀ (l : List (String × (ℚ × ℚ × ℚ))) (s : PoseState),
      (List.foldl (pose_step d cfg sk m) s l).buf =
        (List.foldl (pose_step d cfg sk m) s
          (l.filter (fun e => (Skeleton.get sk (swap_lr_key cfg e.1)).isSome))).buf := by
  intro l
  induction l with
  | nil => intro s; rfl
  | cons e rest ih =>
    intro s
    rcases hpres : Skeleton.get sk (swap_lr_key cfg e.1) with _ | db
    · have hfil : (e :: rest).filter
          (fun e => (Skeleton.get sk (swap_lr_key cfg e.1)).isSome) =
          rest.filter (fun e => (Skeleton.get sk (swap_lr_key cfg e.1)).isSome) := by
        rw [List.filter_cons]
        simp [hpres]
      rw [hfil]
      simp only [List.foldl_cons]
      have hbuf : (pose_step d cfg sk m s e).buf = s.buf := by
        unfold pose_step
        rw [set_euler_missing s _ _ _ _ m hpres]
      rw [← ih s]
      funext b
      exact pose_foldl_buf_congr d cfg sk m rest _ s b (congrFun hbuf b)
    · have hfil : (e :: rest).filter
          (fun e => (Skeleton.get sk (swap_lr_key cfg e.1)).isSome) =
          e :: rest.filter (fun e => (Skeleton.get sk (swap_lr_key cfg e.1)).isSome) := by
        rw [List.filter_cons]
        simp [hpres]
      rw [hfil]
      simp only [List.foldl_cons]
      exact ih (pose_step d cfg sk m s e)

/-- C5 (amended): a pose entry whose (swapped) name has no match in the
skeleton produces a warning naming that bone and contributes nothing to the
buffer — the run's buffer equals that of the run on the pose with missing
entries filtered out, so every other entry is still applied — while a
missing hinge-pair endpoint is skipped silently: `_build_hinge_map` emits no
warning, so a call with an empty pose leaves the warning list unchanged even
when hinge endpoints are absent. -/
theorem C5_missing_bone_handling (d : ℚ) (cfg : Config) (sk : Skeleton)
    (st : PoseState) (pose_deg : List (String × (ℚ × ℚ × ℚ)))
    (hpr : cfg.preview_flex_deg = 0) :
    (∀ n v, (n, v) ∈ pose_deg → Skeleton.get sk (swap_lr_key cfg n) = none →
      ("[WARN] Missing bone: " ++ swap_lr_key cfg n) ∈
        (apply_pose d cfg sk st pose_deg).warnings) ∧
    ((apply_pose d cfg sk st pose_deg).buf =
      (apply_pose d cfg sk st
        (pose_deg.filter
          (fun e => (Skeleton.get sk (swap_lr_key cfg e.1)).isSome))).buf) ∧
    ((apply_pose d cfg sk st []).warnings = st.warnings) := by
  refine ⟨fun n v hmem habs => ?_, ?_, ?_⟩
  · rw [apply_pose_normal d cfg sk st pose_deg hpr]
    exact pose_foldl_warning_missing d cfg sk _ pose_deg st n v hmem habs
  · rw [apply_pose_normal d cfg sk st pose_deg hpr, apply_pose_normal d cfg sk st _ hpr]
    exact pose_foldl_filter d cfg sk _ pose_deg st
  · rw [apply_pose_normal d cfg sk st [] hpr]
    rfl

/-- C5 witness: a pose naming the absent `lowerarm_l` (on the skeleton `sk1`
that lacks it) yields the warning naming it, and the buffer matches the
filtered-pose run. -/
theorem C5_missing_bone_handling_witness :
    ("[WARN] Missing bone: " ++ swap_lr_key defaultConfig "lowerarm_l") ∈
      (apply_pose 1 defaultConfig sk1 st0 pose30).warnings ∧
    (apply_pose 1 defaultConfig sk1 st0 pose30).buf =
      (apply_pose 1 defaultConfig sk1 st0
        (pose30.filter
          (fun e => (Skeleton.get sk1 (swap_lr_key defaultConfig e.1)).isSome))).buf :=
  ⟨(C5_missing_bone_handling 1 defaultConfig sk1 st0 pose30
      (by with_unfolding_all decide)).1 "lowerarm_l" (0, 30, 0)
      (by with_unfolding_all decide) (by with_unfolding_all decide),
   (C5_missing_bone_handling 1 defaultConfig sk1 st0 pose30
      (by with_unfolding_all decide)).2.1⟩

/-- C5 counterexample: with the hinge child `lowerarm_l` absent from the
skeleton and an empty pose, `apply_pose` finishes with an empty warning
list — no warning names the missing hinge-pair endpoint, contradicting the
claim that every unmatched hinge-pair endpoint produces a warning. -/
theorem C5_missing_bone_handling_counterexample :
    ("upperarm_l", "lowerarm_l") ∈ defaultConfig.hinge_pairs ∧
    Skeleton.get sk1 "lowerarm_l" = none ∧
    (apply_pose 1 defaultConfig sk1 st0 []).warnings = [] := by
  refine ⟨by with_unfolding_all decide, by with_unfolding_all decide, ?_⟩
  with_unfolding_all decide

lemma reset_then_apply_absent (d : ℚ) (cfg : Config) (sk : Skeleton)
    (st : PoseState) (pose_deg : List (String × (ℚ × ℚ × ℚ))) (b : String)
    (hg : Skeleton.get sk b = none) :
    (reset_then_apply d cfg sk st pose_deg).buf b = st.buf b := by
  unfold reset_then_apply
  rw [apply_pose_buf_absent d cfg sk _ pose_deg b hg]
  dsimp only
  rw [reset_rotations_point]
  simp [hg]

lemma reset_then_apply_managed_congr (d : ℚ) (cfg : Config) (sk : Skeleton)
    (st st' : PoseState) (pose_deg : List (String × (ℚ × ℚ × ℚ))) (b : String)
    (hb : b ∈ cfg.bones_order)
    (habs : Skeleton.get sk b = none → st.buf b = st'.buf b) :
    (reset_then_apply d cfg sk st pose_deg).buf b =
      (reset_then_apply d cfg sk st' pose_deg).buf b := by
  unfold reset_then_apply
  rcases hg : Skeleton.get sk b with _ | db
  · rw [apply_pose_buf_absent d cfg sk _ pose_deg b hg,
      apply_pose_buf_absent d cfg sk _ pose_deg b hg]
    dsimp only
    rw [reset_rotations_point, reset_rotations_point]
    simp [hg, habs hg]
  · apply apply_pose_buf_congr
    dsimp only
    rw [reset_rotations_point, reset_rotations_point]
    have hs : (Skeleton.get sk b).isSome = true := by rw [hg]; rfl
    rw [if_pos ⟨hb, hs⟩, if_pos ⟨hb, hs⟩]

/-- C1 (amended): `apply_pose` itself performs no reset (see the
counterexample), but the script's `main` flow — `reset_rotations` followed by
`apply_pose`, embedded as `reset_then_apply` — is idempotent on every managed
bone: running it twice with the same pose leaves the same buffer value as
running it once, and running pose A before pose B leaves the same value as
running B alone. -/
theorem C1_reset_then_apply_idempotent (d : ℚ) (cfg : Config) (sk : Skeleton)
    (st : PoseState) (pose_a pose_b : List (String × (ℚ × ℚ × ℚ))) (b : String)
    (hb : b ∈ cfg.bones_order) :
    ((reset_then_apply d cfg sk (reset_then_apply d cfg sk st pose_a) pose_a).buf b =
      (reset_then_apply d cfg sk st pose_a).buf b) ∧
    ((reset_then_apply d cfg sk (reset_then_apply d cfg sk st pose_a) pose_b).buf b =
      (reset_then_apply d cfg sk st pose_b).buf b) := by
  have key : ∀ pose_c, (reset_then_apply d cfg sk
      (reset_then_apply d cfg sk st pose_a) pose_c).buf b =
      (reset_then_apply d cfg sk st pose_c).buf b := by
    intro pose_c
    apply reset_then_apply_managed_congr d cfg sk _ st pose_c b hb
    intro hg
    exact reset_then_apply_absent d cfg sk st pose_a b hg
  exact ⟨key pose_a, key pose_b⟩

/-- C1 witness: for the managed elbow child, reset-then-apply is idempotent
and leaves no residue of a previous pose. -/
theorem C1_reset_then_apply_idempotent_witness :
    ("lowerarm_l" ∈ defaultConfig.bones_order) ∧
    ((reset_then_apply 1 defaultConfig sk0
        (reset_then_apply 1 defaultConfig sk0 stNZ pose30) pose30).buf "lowerarm_l" =
      (reset_then_apply 1 defaultConfig sk0 stNZ pose30).buf "lowerarm_l") ∧
    ((reset_then_apply 1 defaultConfig sk0
        (reset_then_apply 1 defaultConfig sk0 stNZ pose30) poseM).buf "lowerarm_l" =
      (reset_then_apply 1 defaultConfig sk0 stNZ poseM).buf "lowerarm_l") :=
  ⟨by with_unfolding_all decide,
   (C1_reset_then_apply_idempotent 1 defaultConfig sk0 stNZ pose30 poseM "lowerarm_l"
      (by with_unfolding_all decide)).1,
   (C1_reset_then_apply_idempotent 1 defaultConfig sk0 stNZ pose30 poseM "lowerarm_l"
      (by with_unfolding_all decide)).2⟩

/-- C1 counterexample: `apply_pose` alone does not reset — applying the same
30-degree elbow pose twice in succession doubles the hinge value (adds are
cumulative), so the managed bone `lowerarm_l` ends with different buffer
contents than after a single application, contradicting the claim that
`applyPose` resets before writing and is therefore idempotent. -/
theorem C1_reset_then_apply_idempotent_counterexample :
    ("lowerarm_l" ∈ defaultConfig.bones_order) ∧
    ¬ ((apply_pose 1 defaultConfig sk0
          (apply_pose 1 defaultConfig sk0 st0 pose30) pose30).buf "lowerarm_l" =
        (apply_pose 1 defaultConfig sk0 st0 pose30).buf "lowerarm_l") := by
  constructor
  · with_unfolding_all decide
  · with_unfolding_all decide

/-- C2 (amended, spec-modelled): the constraint-based resolver exists only in
the spec — the repository's `_build_hinge_map` has no constraint path.  The
modelled `resolveFromConstraints` returns axis A exactly when A is the unique
free axis (an axis is locked iff `enabled` and `min = max = 0` within `1e-6`)
and `none` when zero or two-or-more axes are free; on the spec's own §8
scenario (Y locked, X and Z free because disabled) that is `none`, not Y; and
in the code every hinge-map binding is produced solely from the axis
override or rest-pose geometry of a present hinge pair — rotation limits are
never consulted. -/
theorem C2_constraint_resolution_amended :
    (∀ (rl : RotationLimit) (i : Fin 3),
      resolveFromConstraints rl = some i ↔
        (axis_free rl i = true ∧ ∀ j, axis_free rl j = true → j = i)) ∧
    resolveFromConstraints rl0 = none ∧
    (∀ (cfg : Config) (sk : Skeleton) (c' a : String),
      List.lookup c' (build_hinge_map cfg sk) = some a →
      ∃ pc pdb cdb, pc ∈ cfg.hinge_pairs ∧
        Skeleton.get sk (swap_lr_key cfg pc.1) = some pdb ∧
        Skeleton.get sk (swap_lr_key cfg pc.2) = some cdb ∧
        c' = swap_lr_key cfg pc.2 ∧
        a = (match List.lookup c' cfg.hinge_axis_override with
             | some w => if valid_axis w then some w else none
             | none => none).getD
          (axis_name (compute_hinge_axis_for_child pdb cdb))) := by
  refine ⟨?_, by with_unfolding_all decide, ?_⟩
  · intro rl i
    unfold resolveFromConstraints
    cases h0 : axis_free rl 0 <;> cases h1 : axis_free rl 1 <;>
      cases h2 : axis_free rl 2 <;> dsimp only
    · constructor
      · intro hh
        exact absurd hh (by simp)
      · intro hh
        exfalso
        fin_cases i <;> simp_all
    · constructor
      · intro hh
        obtain rfl := Option.some.inj hh
        exact ⟨h2, fun j hj => by fin_cases j <;> simp_all⟩
      · intro hh
        rw [hh.2 2 h2]
    · constructor
      · intro hh
        obtain rfl := Option.some.inj hh
        exact ⟨h1, fun j hj => by fin_cases j <;> simp_all⟩
      · intro hh
        rw [hh.2 1 h1]
    · constructor
      · intro hh
        exact absurd hh (by simp)
      · intro hh
        exfalso
        have ha := hh.2 1 h1
        have hb := hh.2 2 h2
        rw [← ha] at hb
        exact absurd hb (by decide)
    · constructor
      · intro hh
        obtain rfl := Option.some.inj hh
        exact ⟨h0, fun j hj => by fin_cases j <;> simp_all⟩
      · intro hh
        rw [hh.2 0 h0]
    · constructor
      · intro hh
        exact absurd hh (by simp)
      · intro hh
        exfalso
        have ha := hh.2 0 h0
        have hb := hh.2 2 h2
        rw [← ha] at hb
        exact absurd hb (by decide)
    · constructor
      · intro hh
        exact absurd hh (by simp)
      · intro hh
        exfalso
        have ha := hh.2 0 h0
        have hb := hh.2 1 h1
        rw [← ha] at hb
        exact absurd hb (by decide)
    · constructor
      · intro hh
        exact absurd hh (by simp)
      · intro hh
        exfalso
        have ha := hh.2 0 h0
        have hb := hh.2 1 h1
        rw [← ha] at hb
        exact absurd hb (by decide)
  · intro cfg sk c' a h
    rw [build_hinge_map_lookup] at h
    obtain ⟨pc, hmem, he⟩ := last_axis_mem_source cfg sk cfg.hinge_pairs c' a h
    have hef := entry_axis_inv cfg sk pc c' a he
    obtain ⟨pdb, cdb, h1, h2, h3⟩ := hinge_entry_for_inv cfg sk pc (c', a) hef
    have hc' : c' = swap_lr_key cfg pc.2 := congrArg Prod.fst h3
    refine ⟨pc, pdb, cdb, hmem, h1, h2, hc', ?_⟩
    rw [hc']
    exact congrArg Prod.snd h3

/-- C2 witness: the modelled resolver applied to a limit with exactly one
free axis (Y) yields that axis with the unique-free-axis characterisation,
and a code hinge-map binding decomposes into override-or-geometry data. -/
theorem C2_constraint_resolution_amended_witness :
    (axis_free rl1 1 = true ∧ ∀ j, axis_free rl1 j = true → j = 1) ∧
    (∃ pc pdb cdb, pc ∈ defaultConfig.hinge_pairs ∧
      Skeleton.get sk0 (swap_lr_key defaultConfig pc.1) = some pdb ∧
      Skeleton.get sk0 (swap_lr_key defaultConfig pc.2) = some cdb ∧
      "lowerarm_l" = swap_lr_key defaultConfig pc.2 ∧
      "x" = (match List.lookup "lowerarm_l" defaultConfig.hinge_axis_override with
             | some w => if valid_axis w then some w else none
             | none => none).getD
        (axis_name (compute_hinge_axis_for_child pdb cdb))) :=
  ⟨(C2_constraint_resolution_amended.1 rl1 1).mp (by with_unfolding_all decide),
   C2_constraint_resolution_amended.2.2 defaultConfig sk0 "lowerarm_l" "x"
     (by with_unfolding_all decide)⟩

/-- C2 counterexample: on the spec's §8 scenario limit the modelled
constraint resolver returns `none` (X and Z are both free), not axis Y; and
the code — which has no constraint path at all — resolves the elbow child to
`'x'` by geometry, so the claim that this scenario "resolves hinge axis Y via
the constraint path" is false both against the spec's own locking rule and
against the code. -/
theorem C2_constraint_resolution_counterexample :
    resolveFromConstraints rl0 = none ∧
    List.lookup "lowerarm_l" (build_hinge_map defaultConfig sk0) = some "x" ∧
    ("x" : String) ≠ "y" := by
  refine ⟨by with_unfolding_all decide, by with_unfolding_all decide, ?_⟩
  with_unfolding_all decide

end ImageToPose
